import Mathlib

/-!
# CricketChat: the connection registry and broadcast engine

A shallow embedding of `src/src/websocket.js`, of the heartbeat timer of
`src/src/server.js`, of the history query of `src/src/routes.js` and of the
engine methods of the class in `src/src/index.js`.  The JavaScript functions
mutate two shared objects, the
`clients` map and the `messageHistory` array, and talk to the outside world by
calling `send` on a socket.  Here every function takes the values of the shared
objects it reads and returns the values they have afterwards, together with the
list of frames it handed to sockets (in call order) and a flag telling whether
the call ended by an exception.

Things that come from outside the repository are parameters of the model:
* the clock (`Date.now().toString(36)`, `new Date().toISOString()`): `Clock`;
* `JSON.parse`: a function `parse : String → Option Payload`;
* the identity produced by `generateUserId` (it is random): an argument;
* the socket: `Conn`, with the `readyState` the code reads and a flag saying
  whether a call of its `send` throws.
`JSON.stringify` is left implicit: a frame is recorded as the object that is
serialised.
-/

namespace CricketChat

/-! ## Data model -/

/-- A socket of the `ws` library as the code sees it: `chan` tells sockets
apart, `readyState` is the property the code compares with `1` (OPEN), and
`sendRaises` says whether calling `send` on it throws. -/
structure Conn where
  chan : Nat
  readyState : Nat
  sendRaises : Bool
deriving DecidableEq, Repr

/-- The `clients` map: a JavaScript `Map` from user id to socket, kept as the
list of its entries in insertion order (the order `forEach` and `keys` use). -/
abbrev Registry := List (String × Conn)

/-- Well-formedness of the `clients` map: a `Map` holds one entry per key. -/
def Registry.WF (clients : Registry) : Prop := (clients.map Prod.fst).Nodup

/-- The `chatMessage` object built by `handleChatMessage` (its `type` field is
the constant `"chat_message"`).  `content` is absent when the payload had
none. -/
structure ChatMessage where
  messageId : String
  userId : String
  username : String
  content : Option String
  timestamp : String
deriving DecidableEq, Repr

/-- The objects the server serialises and sends, one constructor per value of
their `type` field. -/
inductive Frame where
  | welcome (userId timestamp message : String) (onlineUsers : List String)
      (onlineCount : Nat) (messageHistory : List ChatMessage)
  | chat_message (m : ChatMessage)
  | user_joined (userId timestamp : String) (onlineCount : Nat)
  | user_left (userId timestamp : String) (onlineCount : Nat)
  | typing (userId username timestamp : String)
  | user_update (userId username timestamp : String)
  | online_update (onlineCount : Nat) (timestamp : String)
  | error (message timestamp : String)
deriving DecidableEq, Repr

/-- A parsed inbound payload other than `null`: a JSON value read only through
the properties `type`, `username` and `content`, taken to be strings when
present (a value of another kind under `username` or `content` is outside this
type).  A property is `none` when it is absent (for `type`: also when it is not
a string, which no `case` of the switch matches); a number, a string, a boolean
or an array has none of the three.  `messageId`, `timestamp` and `userId` are
properties a client may add; the server never reads them.  The payload `null`
is the other case of `Parsed`. -/
structure Payload where
  type : Option String
  username : Option String
  content : Option String
  messageId : Option String
  timestamp : Option String
  userId : Option String
deriving DecidableEq, Repr

/-- What `JSON.parse` returns when it does not throw: `null`, or a value whose
properties can be read. -/
inductive Parsed where
  | null
  | value (message : Payload)
deriving DecidableEq, Repr

/-- The clock readings of one handler call: `now36` is
`Date.now().toString(36)`, `iso` is `new Date().toISOString()`. -/
structure Clock where
  now36 : String
  iso : String
deriving DecidableEq, Repr

/-- One successful `send`: the socket and the object serialised to it. -/
structure Delivery where
  chan : Nat
  data : Frame
deriving DecidableEq, Repr

/-- What a call did to the outside: the frames sent, in order, and whether the
call ended by throwing. -/
structure Effect where
  sent : List Delivery
  raised : Bool
deriving DecidableEq, Repr

/-- Result of a function that works on the `clients` map only. -/
structure RegOutcome where
  clients : Registry
  sent : List Delivery
  raised : Bool
deriving DecidableEq, Repr

/-- Result of a function that works on `clients` and `messageHistory`. -/
structure Outcome where
  clients : Registry
  messageHistory : List ChatMessage
  sent : List Delivery
  raised : Bool
deriving DecidableEq, Repr

/-! ## The `Map` operations the code uses -/

/-- `clients.has(userId)`. -/
def mapHas (clients : Registry) (userId : String) : Bool :=
  clients.any (fun e => e.1 == userId)

/-- `clients.delete(userId)`. -/
def mapDelete (clients : Registry) (userId : String) : Registry :=
  clients.filter (fun e => e.1 != userId)

/-- `clients.set(userId, ws)`: an existing key keeps its place and gets the new
value, a new key is appended. -/
def mapSet (clients : Registry) (userId : String) (ws : Conn) : Registry :=
  if mapHas clients userId then
    clients.map (fun e => if e.1 == userId then (userId, ws) else e)
  else
    clients ++ [(userId, ws)]

/-- `clients.get(userId)`. -/
def mapGet (clients : Registry) (userId : String) : Option Conn :=
  (clients.find? (fun e => e.1 == userId)).map Prod.snd

/-! ## websocket.js -/

/-- `client.send(data)`: throws, or hands the frame to the socket. -/
def send (ws : Conn) (data : Frame) : Effect :=
  if ws.sendRaises then ⟨[], true⟩ else ⟨[⟨ws.chan, data⟩], false⟩

/-- The `clients.forEach` of `broadcast` over the entries still to visit.  An
exception thrown by `send` leaves the callback, `forEach` and `broadcast`:
there is no `try` around it. -/
def broadcastLoop (message : Frame) (excludeUserId : Option String) :
    List (String × Conn) → Effect
  | [] => ⟨[], false⟩
  | (userId, client) :: rest =>
    if some userId ≠ excludeUserId ∧ client.readyState = 1 then
      if client.sendRaises then ⟨[], true⟩
      else
        let r := broadcastLoop message excludeUserId rest
        ⟨⟨client.chan, message⟩ :: r.sent, r.raised⟩
    else broadcastLoop message excludeUserId rest

/-- `broadcast(clients, message, excludeUserId)`; `none` is the default
`null`. -/
def broadcast (clients : Registry) (message : Frame) (excludeUserId : Option String) :
    Effect :=
  broadcastLoop message excludeUserId clients

/-- The first `n` UTF-16 code units of a text, as `substring(0, n)` counts
them: a character outside the Basic Multilingual Plane takes two units.  When
the cut falls inside such a character JavaScript keeps its first half, a lone
surrogate, which a Lean string cannot hold: the character is left out here. -/
def utf16Prefix : Nat → List Char → List Char
  | _, [] => []
  | n, c :: cs =>
    if c.val.toNat < 65536 then
      if 1 ≤ n then c :: utf16Prefix (n - 1) cs else []
    else
      if 2 ≤ n then c :: utf16Prefix (n - 2) cs else []

/-- The default display name: the two characters of the template followed by
`userId.substring(0, 6)`. -/
def defaultName (userId : String) : String :=
  "用户" ++ String.mk (utf16Prefix 6 userId.data)

/-- `message.username || default`: an absent or empty name is falsy. -/
def displayName (message : Payload) (userId : String) : String :=
  match message.username with
  | some u => if u = "" then defaultName userId else u
  | none => defaultName userId

/-- The object literal `chatMessage` of `handleChatMessage`. -/
def chatRecord (userId : String) (message : Payload) (clk : Clock) : ChatMessage :=
  { messageId := clk.now36
    userId := userId
    username := displayName message userId
    content := message.content
    timestamp := clk.iso }

/-- `handleChatMessage(clients, messageHistory, userId, message)`. -/
def handleChatMessage (clients : Registry) (messageHistory : List ChatMessage)
    (userId : String) (message : Payload) (clk : Clock) : Outcome :=
  let chatMessage := chatRecord userId message clk
  let pushed := messageHistory ++ [chatMessage]
  let history := if pushed.length > 100 then pushed.tail else pushed
  let b := broadcast clients (Frame.chat_message chatMessage) none
  ⟨clients, history, b.sent, b.raised⟩

/-- `handleTypingIndicator(clients, userId, message)`. -/
def handleTypingIndicator (clients : Registry) (userId : String) (message : Payload)
    (clk : Clock) : Effect :=
  broadcast clients (Frame.typing userId (displayName message userId) clk.iso) (some userId)

/-- `handleUserUpdate(clients, userId, message)`. -/
def handleUserUpdate (clients : Registry) (userId : String) (message : Payload)
    (clk : Clock) : Effect :=
  broadcast clients (Frame.user_update userId (displayName message userId) clk.iso) none

/-- `handleWebSocketMessage(clients, messageHistory, userId, message, ws)`. -/
def handleWebSocketMessage (clients : Registry) (messageHistory : List ChatMessage)
    (userId : String) (message : Payload) (ws : Conn) (clk : Clock) : Outcome :=
  if message.type = some "chat_message" then
    handleChatMessage clients messageHistory userId message clk
  else if message.type = some "typing" then
    let e := handleTypingIndicator clients userId message clk
    ⟨clients, messageHistory, e.sent, e.raised⟩
  else if message.type = some "user_update" then
    let e := handleUserUpdate clients userId message clk
    ⟨clients, messageHistory, e.sent, e.raised⟩
  else
    let e := send ws (Frame.error "未知的消息类型" clk.iso)
    ⟨clients, messageHistory, e.sent, e.raised⟩

/-- `handleWebSocketMessage` on whatever `JSON.parse` returned.  On `null` the
read of `message.type` in the head of the `switch` throws a `TypeError`:
nothing has been sent or changed.  On every other value it is
`handleWebSocketMessage` on the properties of the value. -/
def handleWebSocketMessageAny (clients : Registry) (messageHistory : List ChatMessage)
    (userId : String) (message : Parsed) (ws : Conn) (clk : Clock) : Outcome :=
  match message with
  | Parsed.null => ⟨clients, messageHistory, [], true⟩
  | Parsed.value m => handleWebSocketMessage clients messageHistory userId m ws clk

/-- `handleUserDisconnect(clients, userId)`. -/
def handleUserDisconnect (clients : Registry) (userId : String) (clk : Clock) :
    RegOutcome :=
  if mapHas clients userId then
    let clients1 := mapDelete clients userId
    let b := broadcast clients1 (Frame.user_left userId clk.iso clients1.length) none
    ⟨clients1, b.sent, b.raised⟩
  else ⟨clients, [], false⟩

/-- The `forEach` shared by `cleanupDeadConnections` and the heartbeat timer:
`visit` are the entries still to come, `clients` is the map being changed,
`removedCount` the counter. -/
def sweepLoop : List (String × Conn) → Registry → Nat → Registry × Nat
  | [], clients, removedCount => (clients, removedCount)
  | (userId, client) :: visit, clients, removedCount =>
    if client.readyState ≠ 1 then
      sweepLoop visit (mapDelete clients userId) (removedCount + 1)
    else sweepLoop visit clients removedCount

/-- `cleanupDeadConnections(clients)`: it only logs, it sends nothing. -/
def cleanupDeadConnections (clients : Registry) : Registry :=
  (sweepLoop clients clients 0).1

/-- The callback of the `setInterval` in `setupWebSocket`. -/
def cleanupTimer (clients : Registry) : RegOutcome :=
  ⟨cleanupDeadConnections clients, [], false⟩

/-- The last `n` elements, `array.slice(-n)` for `n > 0`. -/
def sliceLast (n : Nat) (history : List ChatMessage) : List ChatMessage :=
  history.drop (history.length - n)

/-- The `connection` callback of `setupWebSocket`, for the socket `ws` and the
identity `userId` that `generateUserId` returned.  `clk` is read for the
welcome frame, `clkJoin` for the `user_joined` one. -/
def onConnection (clients : Registry) (messageHistory : List ChatMessage) (ws : Conn)
    (userId : String) (clk clkJoin : Clock) : Outcome :=
  let clients1 := mapSet clients userId ws
  let w := send ws (Frame.welcome userId clk.iso "欢迎来到聊天室！"
    (clients1.map Prod.fst) clients1.length (sliceLast 10 messageHistory))
  if w.raised then ⟨clients1, messageHistory, w.sent, true⟩
  else
    let b := broadcast clients1 (Frame.user_joined userId clkJoin.iso clients1.length)
      (some userId)
    ⟨clients1, messageHistory, w.sent ++ b.sent, b.raised⟩

/-- The `message` callback registered for the connection `(userId, ws)`: the
`try` covers `JSON.parse` and the dispatch, the `catch` replies to `ws`.
`parse data` is `none` when `JSON.parse` throws, and also when it returns
`null`, for which reading `message.type` throws inside the same `try`.
`clkCatch` is the clock read in the `catch`. -/
def onMessage (parse : String → Option Payload) (clients : Registry)
    (messageHistory : List ChatMessage) (userId : String) (ws : Conn) (data : String)
    (clk clkCatch : Clock) : Outcome :=
  match parse data with
  | none =>
    let e := send ws (Frame.error "消息格式错误" clkCatch.iso)
    ⟨clients, messageHistory, e.sent, e.raised⟩
  | some message =>
    let r := handleWebSocketMessage clients messageHistory userId message ws clk
    if r.raised then
      let e := send ws (Frame.error "消息格式错误" clkCatch.iso)
      ⟨r.clients, r.messageHistory, r.sent ++ e.sent, e.raised⟩
    else r

/-- The `message` callback with `JSON.parse` kept apart from the read of
`message.type`: `parseJson data` is `none` when `JSON.parse` throws.  The
`catch` also takes the exception of the dispatch, the `TypeError` on `null`
included. -/
def onMessageAny (parseJson : String → Option Parsed) (clients : Registry)
    (messageHistory : List ChatMessage) (userId : String) (ws : Conn) (data : String)
    (clk clkCatch : Clock) : Outcome :=
  match parseJson data with
  | none =>
    let e := send ws (Frame.error "消息格式错误" clkCatch.iso)
    ⟨clients, messageHistory, e.sent, e.raised⟩
  | some message =>
    let r := handleWebSocketMessageAny clients messageHistory userId message ws clk
    if r.raised then
      let e := send ws (Frame.error "消息格式错误" clkCatch.iso)
      ⟨r.clients, r.messageHistory, r.sent ++ e.sent, e.raised⟩
    else r

/-! ## server.js -/

/-- The callback of the `setInterval` in `ChatServer.setupHeartbeat`. -/
def heartbeatTimer (clients : Registry) (clk : Clock) : RegOutcome :=
  let r := sweepLoop clients clients 0
  if r.2 > 0 then
    let b := broadcast r.1 (Frame.online_update r.1.length clk.iso) none
    ⟨r.1, b.sent, b.raised⟩
  else ⟨r.1, [], false⟩

/-- One 30-second tick.  The constructor calls `setupWebSocket` before
`setupHeartbeat`, so the cleanup timer was registered first and runs first;
the heartbeat timer runs next on the map the first one left. -/
def sweepTick (clients : Registry) (clk : Clock) : RegOutcome :=
  let c := cleanupTimer clients
  let h := heartbeatTimer c.clients clk
  ⟨h.clients, c.sent ++ h.sent, h.raised⟩

/-! ## The server as a transition system -/

/-- An event the process reacts to. -/
inductive Event where
  | connection (ws : Conn) (userId : String) (clk clkJoin : Clock)
  | message (userId : String) (ws : Conn) (data : String) (clk clkCatch : Clock)
  | close (userId : String) (clk : Clock)
  | socketError (userId : String) (clk : Clock)
  | tick (clk : Clock)

/-- The callback run for an event, on the current `clients` and
`messageHistory`. -/
def step (parse : String → Option Payload) (clients : Registry)
    (messageHistory : List ChatMessage) : Event → Outcome
  | Event.connection ws userId clk clkJoin =>
    onConnection clients messageHistory ws userId clk clkJoin
  | Event.message userId ws data clk clkCatch =>
    onMessage parse clients messageHistory userId ws data clk clkCatch
  | Event.close userId clk =>
    let r := handleUserDisconnect clients userId clk
    ⟨r.clients, messageHistory, r.sent, r.raised⟩
  | Event.socketError userId clk =>
    let r := handleUserDisconnect clients userId clk
    ⟨r.clients, messageHistory, r.sent, r.raised⟩
  | Event.tick clk =>
    let r := sweepTick clients clk
    ⟨r.clients, messageHistory, r.sent, r.raised⟩

/-- The state after a sequence of events, with every frame sent on the way. -/
def run (parse : String → Option Payload) :
    Registry → List ChatMessage → List Event → Outcome
  | clients, messageHistory, [] => ⟨clients, messageHistory, [], false⟩
  | clients, messageHistory, ev :: evs =>
    let r := step parse clients messageHistory ev
    let rs := run parse r.clients r.messageHistory evs
    ⟨rs.clients, rs.messageHistory, r.sent ++ rs.sent, rs.raised⟩

/-- One call of `handleChatMessage` as it is issued: sender, payload, clock. -/
structure ChatCall where
  userId : String
  message : Payload
  clk : Clock
deriving DecidableEq, Repr

/-- The history after handling the calls one after the other. -/
def handleChatMessages (clients : Registry) (messageHistory : List ChatMessage)
    (calls : List ChatCall) : List ChatMessage :=
  calls.foldl
    (fun h c => (handleChatMessage clients h c.userId c.message c.clk).messageHistory)
    messageHistory

/-- The record `handleChatMessage` builds for a call. -/
def ChatCall.record (c : ChatCall) : ChatMessage := chatRecord c.userId c.message c.clk

/-- The call number `i` of the scenario of 150 sequential messages. -/
def nthCall (i : Nat) : ChatCall :=
  ⟨"a", ⟨some "chat_message", some "alice", some (toString i), none, none, none⟩,
    ⟨toString i, toString i⟩⟩

/-- The guard of the callback of `broadcast`:
`userId !== excludeUserId && client.readyState === 1`. -/
def isRecipient (excludeUserId : Option String) (e : String × Conn) : Bool :=
  decide (some e.1 ≠ excludeUserId) && decide (e.2.readyState = 1)

/-- Three participants A, B, C, connected in this order, all open. -/
def roomABC : Registry :=
  [("A", ⟨1, 1, false⟩), ("B", ⟨2, 1, false⟩), ("C", ⟨3, 1, false⟩)]

/-- A stand-in for `JSON.parse` on the three texts used in the examples; every
other text is rejected. -/
def parseSample (data : String) : Option Payload :=
  if data = "typing" then some ⟨some "typing", none, none, none, none, none⟩
  else if data = "bogus" then some ⟨some "bogus", none, none, none, none, none⟩
  else if data = "empty object" then some ⟨none, none, none, none, none, none⟩
  else none

/-- A room where the socket of A is open but its `send` throws, and B is open
and working. -/
def roomBrokenA : Registry := [("A", ⟨1, 1, true⟩), ("B", ⟨2, 1, false⟩)]

/-- A, B, C registered in this order; the socket of A is closed (`readyState`
3) without the `close` callback having run, B and C are open. -/
def roomDeadA : Registry :=
  [("A", ⟨1, 3, false⟩), ("B", ⟨2, 1, false⟩), ("C", ⟨3, 1, false⟩)]

/-- A sequence of `close` or `error` callbacks with no connection in between:
`handleUserDisconnect` for each identity in turn, with the frames of all the
calls. -/
def handleUserDisconnects : Registry → List (String × Clock) → RegOutcome
  | clients, [] => ⟨clients, [], false⟩
  | clients, (userId, clk) :: rest =>
    let r := handleUserDisconnect clients userId clk
    let rs := handleUserDisconnects r.clients rest
    ⟨rs.clients, r.sent ++ rs.sent, r.raised || rs.raised⟩

/-- Whether a frame is the `user_left` announcement of the identity. -/
def announcesLeft (userId : String) : Frame → Bool
  | Frame.user_left u _ _ => u == userId
  | _ => false

/-! ## routes.js -/

/-- `array.slice(start)` for an integer `start`: a negative `start` counts from
the end, and both ends are clamped to the array. -/
def arraySlice (start : Int) (l : List ChatMessage) : List ChatMessage :=
  if start < 0 then l.drop (l.length - start.natAbs) else l.drop start.toNat

/-- The handler of `GET /api/messages` (the same text in routes.js and in
index.js); the result is the `messages` array of the response.  `parsed` is
the value of `parseInt(req.query.limit)`: `none` for `NaN`, which is what a
missing parameter gives.  `NaN` and `0` are the falsy values `|| 20`
replaces. -/
def apiMessages (messageHistory : List ChatMessage) (parsed : Option Int) :
    List ChatMessage :=
  let limit : Int :=
    match parsed with
    | none => 20
    | some n => if n = 0 then 20 else n
  arraySlice (-limit) messageHistory

/-! ## index.js

The class `ChatServer` of index.js carries its own copy of the engine, as
methods working on `this.clients` and `this.messageHistory`.  It is embedded
here from the text of index.js, method by method. -/

/-- The two fields of a `ChatServer` object that its engine methods use. -/
structure ChatServer where
  clients : Registry
  messageHistory : List ChatMessage
deriving DecidableEq, Repr

/-- Result of a method of `ChatServer`: the object afterwards, the frames
sent, and whether the method ended by throwing. -/
structure ChatServer.Result where
  server : ChatServer
  sent : List Delivery
  raised : Bool
deriving DecidableEq, Repr

namespace ChatServer

/-- The `this.clients.forEach` of the method `broadcast`, over the entries
still to visit. -/
def broadcastLoop (data : Frame) (excludeUserId : Option String) :
    List (String × Conn) → Effect
  | [] => ⟨[], false⟩
  | (userId, client) :: rest =>
    if some userId ≠ excludeUserId ∧ client.readyState = 1 then
      match send client data with
      | ⟨_, true⟩ => ⟨[], true⟩
      | ⟨frames, false⟩ =>
        let r := broadcastLoop data excludeUserId rest
        ⟨frames ++ r.sent, r.raised⟩
    else broadcastLoop data excludeUserId rest

/-- The method `broadcast(message, excludeUserId = null)`. -/
def broadcast (self : ChatServer) (message : Frame) (excludeUserId : Option String) :
    Effect :=
  broadcastLoop message excludeUserId self.clients

/-- The method `handleChatMessage(userId, message)`. -/
def handleChatMessage (self : ChatServer) (userId : String) (message : Payload)
    (clk : Clock) : Result :=
  let chatMessage : ChatMessage :=
    { messageId := clk.now36
      userId := userId
      username :=
        match message.username with
        | some u => if u = "" then "用户" ++ String.mk (utf16Prefix 6 userId.data) else u
        | none => "用户" ++ String.mk (utf16Prefix 6 userId.data)
      content := message.content
      timestamp := clk.iso }
  let pushed := self.messageHistory ++ [chatMessage]
  let history := if pushed.length > 100 then pushed.tail else pushed
  let b := broadcast ⟨self.clients, history⟩ (Frame.chat_message chatMessage) none
  ⟨⟨self.clients, history⟩, b.sent, b.raised⟩

/-- The method `handleTypingIndicator(userId, message)`. -/
def handleTypingIndicator (self : ChatServer) (userId : String) (message : Payload)
    (clk : Clock) : Result :=
  let username :=
    match message.username with
    | some u => if u = "" then "用户" ++ String.mk (utf16Prefix 6 userId.data) else u
    | none => "用户" ++ String.mk (utf16Prefix 6 userId.data)
  let b := broadcast self (Frame.typing userId username clk.iso) (some userId)
  ⟨self, b.sent, b.raised⟩

/-- The method `handleUserUpdate(userId, message)`. -/
def handleUserUpdate (self : ChatServer) (userId : String) (message : Payload)
    (clk : Clock) : Result :=
  let username :=
    match message.username with
    | some u => if u = "" then "用户" ++ String.mk (utf16Prefix 6 userId.data) else u
    | none => "用户" ++ String.mk (utf16Prefix 6 userId.data)
  let b := broadcast self (Frame.user_update userId username clk.iso) none
  ⟨self, b.sent, b.raised⟩

/-- The method `handleWebSocketMessage(userId, message, ws)`. -/
def handleWebSocketMessage (self : ChatServer) (userId : String) (message : Payload)
    (ws : Conn) (clk : Clock) : Result :=
  match message.type with
  | some t =>
    if t = "chat_message" then handleChatMessage self userId message clk
    else if t = "typing" then handleTypingIndicator self userId message clk
    else if t = "user_update" then handleUserUpdate self userId message clk
    else
      let e := send ws (Frame.error "未知的消息类型" clk.iso)
      ⟨self, e.sent, e.raised⟩
  | none =>
    let e := send ws (Frame.error "未知的消息类型" clk.iso)
    ⟨self, e.sent, e.raised⟩

/-- The method `handleUserDisconnect(userId)`. -/
def handleUserDisconnect (self : ChatServer) (userId : String) (clk : Clock) : Result :=
  if mapHas self.clients userId then
    let after : ChatServer := ⟨mapDelete self.clients userId, self.messageHistory⟩
    let b := broadcast after (Frame.user_left userId clk.iso after.clients.length) none
    ⟨after, b.sent, b.raised⟩
  else ⟨self, [], false⟩

/-- The `this.clients.forEach` of the method `cleanupDeadConnections`: the
entries still to visit, the object being changed, and `removedCount`. -/
def cleanupLoop : List (String × Conn) → ChatServer → Nat → ChatServer × Nat
  | [], self, removedCount => (self, removedCount)
  | (userId, client) :: visit, self, removedCount =>
    if client.readyState ≠ 1 then
      cleanupLoop visit ⟨mapDelete self.clients userId, self.messageHistory⟩
        (removedCount + 1)
    else cleanupLoop visit self removedCount

/-- The method `cleanupDeadConnections()`. -/
def cleanupDeadConnections (self : ChatServer) : ChatServer :=
  (cleanupLoop self.clients self 0).1

end ChatServer

/-- A stand-in for `JSON.parse` that keeps `null` apart: the text `null`
parses to `null`, the text `bogus` to an object of that `type`, and every other
text is rejected. -/
def parseJsonSample (data : String) : Option Parsed :=
  if data = "null" then some Parsed.null
  else if data = "bogus" then
    some (Parsed.value ⟨some "bogus", none, none, none, none, none⟩)
  else none

/-! # Properties -/

/-! ## The bounded history -/

theorem handleChatMessage_messageHistory (clients : Registry) (h : List ChatMessage)
    (userId : String) (message : Payload) (clk : Clock) :
    (handleChatMessage clients h userId message clk).messageHistory =
      if (h ++ [chatRecord userId message clk]).length > 100 then
        (h ++ [chatRecord userId message clk]).tail
      else h ++ [chatRecord userId message clk] := rfl

theorem handleChatMessage_clients (clients : Registry) (h : List ChatMessage)
    (userId : String) (message : Payload) (clk : Clock) :
    (handleChatMessage clients h userId message clk).clients = clients := rfl

theorem handleChatMessage_length_le (clients : Registry) (h : List ChatMessage)
    (userId : String) (message : Payload) (clk : Clock) (hlen : h.length ≤ 100) :
    (handleChatMessage clients h userId message clk).messageHistory.length ≤ 100 := by
  rw [handleChatMessage_messageHistory]
  split
  · simp only [List.length_tail, List.length_append, List.length_singleton]
    omega
  · rename_i hgt
    simp only [List.length_append, List.length_singleton] at hgt ⊢
    omega

theorem handleWebSocketMessage_length_le (clients : Registry) (h : List ChatMessage)
    (userId : String) (message : Payload) (ws : Conn) (clk : Clock)
    (hlen : h.length ≤ 100) :
    (handleWebSocketMessage clients h userId message ws clk).messageHistory.length
      ≤ 100 := by
  unfold handleWebSocketMessage
  split
  · exact handleChatMessage_length_le clients h userId message clk hlen
  · split
    · exact hlen
    · split <;> exact hlen

theorem onMessage_length_le (parse : String → Option Payload) (clients : Registry)
    (h : List ChatMessage) (userId : String) (ws : Conn) (data : String)
    (clk clkCatch : Clock) (hlen : h.length ≤ 100) :
    (onMessage parse clients h userId ws data clk clkCatch).messageHistory.length
      ≤ 100 := by
  unfold onMessage
  split
  · exact hlen
  · dsimp only
    split <;>
      exact handleWebSocketMessage_length_le clients h userId _ ws clk hlen

theorem onConnection_messageHistory (clients : Registry) (h : List ChatMessage)
    (ws : Conn) (userId : String) (clk clkJoin : Clock) :
    (onConnection clients h ws userId clk clkJoin).messageHistory = h := by
  unfold onConnection
  dsimp only
  split <;> rfl

theorem step_length_le (parse : String → Option Payload) (clients : Registry)
    (h : List ChatMessage) (ev : Event) (hlen : h.length ≤ 100) :
    (step parse clients h ev).messageHistory.length ≤ 100 := by
  cases ev with
  | connection ws userId clk clkJoin =>
    simp only [step, onConnection_messageHistory]
    exact hlen
  | message userId ws data clk clkCatch =>
    exact onMessage_length_le parse clients h userId ws data clk clkCatch hlen
  | close userId clk => exact hlen
  | socketError userId clk => exact hlen
  | tick clk => exact hlen

theorem run_length_le (parse : String → Option Payload) (evs : List Event) :
    ∀ (clients : Registry) (h : List ChatMessage), h.length ≤ 100 →
      (run parse clients h evs).messageHistory.length ≤ 100 := by
  induction evs with
  | nil => intro clients h hlen; exact hlen
  | cons ev evs ih =>
    intro clients h hlen
    exact ih _ _ (step_length_le parse clients h ev hlen)

/-- C1: a history of at most 100 records still has at most 100 records after
`handleChatMessage`, whatever the payload and the sender; and starting from the
empty history, no sequence of events (connections, inbound frames, closes,
socket errors, timer ticks) ever leaves more than 100 records in it. -/
theorem history_never_exceeds_100 :
    (∀ (clients : Registry) (h : List ChatMessage) (userId : String) (message : Payload)
        (clk : Clock), h.length ≤ 100 →
        (handleChatMessage clients h userId message clk).messageHistory.length ≤ 100) ∧
    (∀ (parse : String → Option Payload) (clients : Registry) (evs : List Event),
        (run parse clients [] evs).messageHistory.length ≤ 100) :=
  ⟨fun clients h userId message clk hlen =>
      handleChatMessage_length_le clients h userId message clk hlen,
   fun parse clients evs => run_length_le parse evs clients [] (by simp)⟩

/-- C1, at a full history: handling a message on a history of exactly 100
records leaves at most 100. -/
theorem history_never_exceeds_100_witness :
    (List.replicate 100 (chatRecord "a" ⟨none, none, none, none, none, none⟩ ⟨"0", "t"⟩)).length
        ≤ 100 ∧
      (handleChatMessage [("a", ⟨1, 1, false⟩)]
        (List.replicate 100 (chatRecord "a" ⟨none, none, none, none, none, none⟩ ⟨"0", "t"⟩))
        "a" ⟨some "chat_message", none, some "hi", none, none, none⟩
        ⟨"1", "u"⟩).messageHistory.length ≤ 100 :=
  ⟨by simp, history_never_exceeds_100.1 _ _ _ _ _ (by simp)⟩

/-! ## The history holds the last 100 records -/

theorem push_shift_drop (l : List ChatMessage) (m : ChatMessage) :
    (if (l.drop (l.length - 100) ++ [m]).length > 100 then
        (l.drop (l.length - 100) ++ [m]).tail
      else l.drop (l.length - 100) ++ [m]) =
      (l ++ [m]).drop ((l ++ [m]).length - 100) := by
  simp only [List.length_append, List.length_drop, List.length_singleton]
  by_cases hl : l.length < 100
  · have h0 : l.length - 100 = 0 := by omega
    have h1 : l.length + 1 - 100 = 0 := by omega
    rw [h0, h1, if_neg (by omega)]
    simp
  · have hne : l.drop (l.length - 100) ≠ [] := by
      intro hnil
      have := congrArg List.length hnil
      simp only [List.length_drop, List.length_nil] at this
      omega
    rw [if_pos (by omega), List.tail_append_of_ne_nil hne, List.tail_drop,
      List.drop_append_of_le_length (by omega)]
    congr 2
    omega

theorem handleChatMessages_append (clients : Registry) (h : List ChatMessage)
    (calls : List ChatCall) (c : ChatCall) :
    handleChatMessages clients h (calls ++ [c]) =
      (handleChatMessage clients (handleChatMessages clients h calls)
        c.userId c.message c.clk).messageHistory := by
  simp [handleChatMessages, List.foldl_append]

theorem handleChatMessages_eq_drop (clients : Registry) (calls : List ChatCall) :
    handleChatMessages clients [] calls =
      (calls.map ChatCall.record).drop (calls.length - 100) := by
  induction calls using List.reverseRecOn with
  | nil => rfl
  | append_singleton calls c ih =>
    rw [handleChatMessages_append, handleChatMessage_messageHistory, ih]
    have := push_shift_drop (calls.map ChatCall.record) c.record
    simp only [List.length_map, List.length_append, List.length_singleton,
      List.map_append, List.map_cons, List.map_nil] at this ⊢
    exact this

/-- C2: after any `n` calls of `handleChatMessage` from the empty history, the
history is the list of the records built for the last `min n 100` calls, in
call order; and one call either appends its record (history shorter than 100)
or drops exactly the oldest record and appends its own (history of 100 or
more). -/
theorem history_is_last_100_records :
    (∀ (clients : Registry) (calls : List ChatCall),
      handleChatMessages clients [] calls =
          (calls.map ChatCall.record).drop (calls.length - 100) ∧
        (handleChatMessages clients [] calls).length = min calls.length 100) ∧
    (∀ (clients : Registry) (h : List ChatMessage) (userId : String) (message : Payload)
        (clk : Clock),
      (h.length < 100 →
        (handleChatMessage clients h userId message clk).messageHistory =
          h ++ [chatRecord userId message clk]) ∧
      (100 ≤ h.length →
        (handleChatMessage clients h userId message clk).messageHistory =
          h.tail ++ [chatRecord userId message clk])) := by
  refine ⟨fun clients calls => ⟨handleChatMessages_eq_drop clients calls, ?_⟩,
    fun clients h userId message clk => ⟨fun hlt => ?_, fun hge => ?_⟩⟩
  · rw [handleChatMessages_eq_drop]
    simp only [List.length_drop, List.length_map]
    omega
  · rw [handleChatMessage_messageHistory, if_neg]
    simp only [List.length_append, List.length_singleton]
    omega
  · have hne : h ≠ [] := by
      intro hnil
      rw [hnil] at hge
      simp at hge
    rw [handleChatMessage_messageHistory, if_pos, List.tail_append_of_ne_nil hne]
    simp only [List.length_append, List.length_singleton]
    omega

/-- C2 on 150 sequential messages (numbered 0 to 149): the history is the
records of the messages 50 to 149, that is the 51st to the 150th, in order. -/
theorem history_is_last_100_records_witness :
    handleChatMessages [("a", ⟨1, 1, false⟩)] [] ((List.range 150).map nthCall) =
        ((List.range' 50 100).map nthCall).map ChatCall.record ∧
      (handleChatMessages [("a", ⟨1, 1, false⟩)] [] ((List.range 150).map nthCall)).length
        = 100 := by
  have h := history_is_last_100_records.1 [("a", ⟨1, 1, false⟩)]
    ((List.range 150).map nthCall)
  have hlen : ((List.range 150).map nthCall).length = 150 := by simp
  rw [hlen] at h
  refine ⟨?_, h.2⟩
  rw [h.1, ← List.map_drop, ← List.map_drop]
  have hr : (List.range 150).drop (150 - 100) = List.range' 50 100 := by decide
  rw [hr]

/-! ## Fan-out -/

theorem broadcastLoop_of_no_raise (message : Frame) (ex : Option String) :
    ∀ (l : List (String × Conn)),
      (∀ e ∈ l, isRecipient ex e = true → e.2.sendRaises = false) →
      broadcastLoop message ex l =
        ⟨(l.filter (isRecipient ex)).map (fun e => ⟨e.2.chan, message⟩), false⟩ := by
  intro l
  induction l with
  | nil => intro _; rfl
  | cons x xs ih =>
    intro hok
    obtain ⟨userId, client⟩ := x
    have ih1 := ih (fun e he => hok e (List.mem_cons_of_mem _ he))
    by_cases hg : some userId ≠ ex ∧ client.readyState = 1
    · have hrec : isRecipient ex (userId, client) = true := by
        simp [isRecipient, hg.1, hg.2]
      have hs : client.sendRaises = false := hok (userId, client) (List.mem_cons_self _ _) hrec
      simp only [broadcastLoop, if_pos hg, hs, ih1, List.filter_cons, hrec]
      simp
    · have hrec : isRecipient ex (userId, client) = false := by
        simp only [isRecipient, Bool.and_eq_false_iff, decide_eq_false_iff_not]
        by_cases h1 : some userId ≠ ex
        · exact Or.inr (fun h2 => hg ⟨h1, h2⟩)
        · exact Or.inl h1
      simp only [broadcastLoop, if_neg hg, ih1, List.filter_cons, hrec]
      simp

theorem isRecipient_none (e : String × Conn) :
    isRecipient none e = decide (e.2.readyState = 1) := by
  simp [isRecipient]

theorem isRecipient_some (P : String) (e : String × Conn) :
    isRecipient (some P) e = (decide (e.1 ≠ P) && decide (e.2.readyState = 1)) := by
  simp [isRecipient]

theorem frames_of_absent_chan (m : Frame) (c : Nat) (p : String × Conn → Bool) :
    ∀ (l : List (String × Conn)), c ∉ l.map (fun e => e.2.chan) →
      (((l.filter p).map (fun e => (⟨e.2.chan, m⟩ : Delivery))).filter
        (fun d => d.chan == c)) = [] := by
  intro l hc
  rw [List.filter_eq_nil_iff]
  intro d hd
  rw [List.mem_map] at hd
  obtain ⟨e, he, rfl⟩ := hd
  have hel : e ∈ l := List.mem_of_mem_filter he
  simp only [beq_iff_eq]
  intro heq
  exact hc (List.mem_map.mpr ⟨e, hel, heq⟩)

theorem frames_of_present_chan (m : Frame) (p : String × Conn → Bool) :
    ∀ (l : List (String × Conn)), (l.map (fun e => e.2.chan)).Nodup →
      ∀ e ∈ l, p e = true →
      (((l.filter p).map (fun e => (⟨e.2.chan, m⟩ : Delivery))).filter
        (fun d => d.chan == e.2.chan)) = [⟨e.2.chan, m⟩] := by
  intro l
  induction l with
  | nil => intro _ e he; cases he
  | cons x xs ih =>
    intro hnd e he hp
    rw [List.map_cons, List.nodup_cons] at hnd
    rcases List.mem_cons.mp he with rfl | hxs
    · rw [List.filter_cons, if_pos hp, List.map_cons, List.filter_cons]
      simp only [beq_self_eq_true, if_true]
      rw [frames_of_absent_chan m e.2.chan p xs hnd.1]
    · have hne : x.2.chan ≠ e.2.chan := by
        intro heq
        exact hnd.1 (List.mem_map.mpr ⟨e, hxs, heq.symm⟩)
      have ih1 := ih hnd.2 e hxs hp
      by_cases hpx : p x = true
      · rw [List.filter_cons, if_pos hpx, List.map_cons, List.filter_cons, if_neg, ih1]
        simpa using hne
      · rw [List.filter_cons, if_neg hpx, ih1]

theorem chatRecord_of_username (P : String) (message : Payload) (u : String) (clk : Clock)
    (hname : message.username = some u) (hu : u ≠ "") :
    chatRecord P message clk = ⟨clk.now36, P, u, message.content, clk.iso⟩ := by
  simp [chatRecord, displayName, hname, hu]

theorem handleChatMessage_sent (clients : Registry) (h : List ChatMessage) (P : String)
    (message : Payload) (clk : Clock) :
    (handleChatMessage clients h P message clk).sent =
        (broadcast clients (Frame.chat_message (chatRecord P message clk)) none).sent ∧
      (handleChatMessage clients h P message clk).raised =
        (broadcast clients (Frame.chat_message (chatRecord P message clk)) none).raised :=
  ⟨rfl, rfl⟩

theorem handleChatMessage_getLast (clients : Registry) (h : List ChatMessage) (P : String)
    (message : Payload) (clk : Clock) :
    (handleChatMessage clients h P message clk).messageHistory.getLast? =
      some (chatRecord P message clk) := by
  rw [handleChatMessage_messageHistory]
  split
  · rename_i hgt
    have hne : h ≠ [] := by
      intro hnil
      rw [hnil] at hgt
      simp at hgt
    rw [List.tail_append_of_ne_nil hne]
    simp
  · simp

theorem broadcast_none_of_no_raise (clients : Registry) (m : Frame)
    (hsend : ∀ e ∈ clients, e.2.readyState = 1 → e.2.sendRaises = false) :
    broadcast clients m none =
      ⟨(clients.filter (fun e => decide (e.2.readyState = 1))).map
        (fun e => ⟨e.2.chan, m⟩), false⟩ := by
  unfold broadcast
  rw [broadcastLoop_of_no_raise m none clients]
  · have hf : isRecipient none = fun e => decide (e.2.readyState = 1) :=
      funext isRecipient_none
    rw [hf]
  · intro e he hr
    rw [isRecipient_none] at hr
    exact hsend e he (of_decide_eq_true hr)

theorem broadcast_some_of_no_raise (clients : Registry) (m : Frame) (P : String)
    (hsend : ∀ e ∈ clients, e.1 ≠ P → e.2.readyState = 1 → e.2.sendRaises = false) :
    broadcast clients m (some P) =
      ⟨(clients.filter (fun e => decide (e.1 ≠ P) && decide (e.2.readyState = 1))).map
        (fun e => ⟨e.2.chan, m⟩), false⟩ := by
  unfold broadcast
  rw [broadcastLoop_of_no_raise m (some P) clients]
  · have hf : isRecipient (some P) =
        fun e => decide (e.1 ≠ P) && decide (e.2.readyState = 1) :=
      funext (isRecipient_some P)
    rw [hf]
  · intro e he hr
    rw [isRecipient_some, Bool.and_eq_true] at hr
    exact hsend e he (of_decide_eq_true hr.1) (of_decide_eq_true hr.2)

/-! ## A send that throws -/

theorem isRecipient_iff (ex : Option String) (userId : String) (client : Conn) :
    isRecipient ex (userId, client) = true ↔
      (some userId ≠ ex ∧ client.readyState = 1) := by
  simp [isRecipient]

theorem broadcastLoop_first_raise (message : Frame) (ex : Option String)
    (x : String × Conn) (post : List (String × Conn))
    (hx : isRecipient ex x = true) (hraise : x.2.sendRaises = true) :
    ∀ (pre : List (String × Conn)),
      (∀ e ∈ pre, isRecipient ex e = true → e.2.sendRaises = false) →
      broadcastLoop message ex (pre ++ x :: post) =
        ⟨(pre.filter (isRecipient ex)).map (fun e => ⟨e.2.chan, message⟩), true⟩ := by
  intro pre
  induction pre with
  | nil =>
    intro _
    obtain ⟨userId, client⟩ := x
    have hg := (isRecipient_iff ex userId client).mp hx
    simp only [List.nil_append, broadcastLoop, if_pos hg]
    simp only [] at hraise
    simp [hraise]
  | cons y ys ih =>
    intro hok
    obtain ⟨userId, client⟩ := y
    have ih1 := ih (fun e he => hok e (List.mem_cons_of_mem _ he))
    by_cases hg : some userId ≠ ex ∧ client.readyState = 1
    · have hrec := (isRecipient_iff ex userId client).mpr hg
      have hs : client.sendRaises = false :=
        hok (userId, client) (List.mem_cons_self _ _) hrec
      simp only [List.cons_append, broadcastLoop, if_pos hg, hs, List.filter_cons, hrec]
      simp [ih1]
    · have hrec : isRecipient ex (userId, client) = false := by
        cases hc : isRecipient ex (userId, client) with
        | false => rfl
        | true => exact absurd ((isRecipient_iff ex userId client).mp hc) hg
      simp only [List.cons_append, broadcastLoop, if_neg hg, List.filter_cons, hrec]
      simpa using ih1

/-- C7 fails: in the room where the `send` of A throws, a broadcast to all
throws and B, open and not excluded, is sent nothing. -/
theorem broadcast_aborted_by_failing_send :
    (broadcast roomBrokenA (Frame.error "x" "t") none).raised = true ∧
      (⟨2, Frame.error "x" "t"⟩ : Delivery) ∉
        (broadcast roomBrokenA (Frame.error "x" "t") none).sent := by
  decide

/-- C7 as amended: `broadcast` has no `try` around `send`.  When no send to an
open, non-excluded entry throws, it does not throw and each such entry gets
the message once, in registry order.  When the first such entry whose send
throws is `x`, `broadcast` throws too; the open, non-excluded entries before
`x` have got the message and nothing is sent to `x` or to any entry after
it. -/
theorem broadcast_stops_at_first_failing_send (message : Frame) (ex : Option String) :
    (∀ (clients : Registry),
      (∀ e ∈ clients, isRecipient ex e = true → e.2.sendRaises = false) →
      broadcast clients message ex =
        ⟨(clients.filter (isRecipient ex)).map (fun e => ⟨e.2.chan, message⟩), false⟩) ∧
    (∀ (pre : Registry) (x : String × Conn) (post : Registry),
      (∀ e ∈ pre, isRecipient ex e = true → e.2.sendRaises = false) →
      isRecipient ex x = true → x.2.sendRaises = true →
      broadcast (pre ++ x :: post) message ex =
        ⟨(pre.filter (isRecipient ex)).map (fun e => ⟨e.2.chan, message⟩), true⟩) :=
  ⟨fun clients hok => broadcastLoop_of_no_raise message ex clients hok,
   fun pre x post hok hx hraise =>
    broadcastLoop_first_raise message ex x post hx hraise pre hok⟩

/-- C7 as amended, on two rooms: with working sockets A, B, C all get the
frame; with B working, then A throwing, then C working, B gets the frame,
the call throws and C gets nothing. -/
theorem broadcast_stops_at_first_failing_send_witness :
    broadcast roomABC (Frame.error "x" "t") none =
        ⟨[⟨1, Frame.error "x" "t"⟩, ⟨2, Frame.error "x" "t"⟩, ⟨3, Frame.error "x" "t"⟩],
          false⟩ ∧
      broadcast ([("B", ⟨2, 1, false⟩)] ++ ("A", ⟨1, 1, true⟩) :: [("C", ⟨3, 1, false⟩)])
          (Frame.error "x" "t") none =
        ⟨[⟨2, Frame.error "x" "t"⟩], true⟩ := by
  have h := broadcast_stops_at_first_failing_send (Frame.error "x" "t") none
  refine ⟨?_, ?_⟩
  · rw [h.1 roomABC (by simp [roomABC])]
    simp [roomABC, isRecipient]
  · rw [h.2 [("B", ⟨2, 1, false⟩)] ("A", ⟨1, 1, true⟩) [("C", ⟨3, 1, false⟩)]
      (by simp) (by simp [isRecipient]) rfl]
    simp [isRecipient]

/-! ## The 30-second timers -/

theorem mem_mapDelete {clients : Registry} {userId : String} {e : String × Conn} :
    e ∈ mapDelete clients userId ↔ e ∈ clients ∧ e.1 ≠ userId := by
  simp [mapDelete]

theorem sweepLoop_mem (visit : List (String × Conn)) :
    ∀ (clients : Registry) (n : Nat) (e : String × Conn),
      e ∈ (sweepLoop visit clients n).1 →
      e ∈ clients ∧ ∀ v ∈ visit, v.2.readyState ≠ 1 → v.1 ≠ e.1 := by
  induction visit with
  | nil =>
    intro clients n e he
    exact ⟨he, fun v hv => absurd hv (List.not_mem_nil v)⟩
  | cons x xs ih =>
    intro clients n e he
    obtain ⟨userId, client⟩ := x
    by_cases hd : client.readyState ≠ 1
    · simp only [sweepLoop, if_pos hd] at he
      obtain ⟨hm, hrest⟩ := ih _ _ e he
      obtain ⟨hc, hk⟩ := mem_mapDelete.mp hm
      refine ⟨hc, fun v hv hvd => ?_⟩
      rcases List.mem_cons.mp hv with rfl | hxs
      · exact fun h => hk h.symm
      · exact hrest v hxs hvd
    · simp only [sweepLoop, if_neg hd] at he
      obtain ⟨hm, hrest⟩ := ih _ _ e he
      refine ⟨hm, fun v hv hvd => ?_⟩
      rcases List.mem_cons.mp hv with rfl | hxs
      · exact absurd hvd hd
      · exact hrest v hxs hvd

theorem sweepLoop_of_all_open (visit : List (String × Conn)) :
    (∀ v ∈ visit, v.2.readyState = 1) →
    ∀ (clients : Registry) (n : Nat), sweepLoop visit clients n = (clients, n) := by
  induction visit with
  | nil => intro _ clients n; rfl
  | cons x xs ih =>
    intro hall clients n
    obtain ⟨userId, client⟩ := x
    have hx : client.readyState = 1 := hall (userId, client) (List.mem_cons_self _ _)
    simp only [sweepLoop, hx, ne_eq, not_true_eq_false, if_false]
    exact ih (fun v hv => hall v (List.mem_cons_of_mem _ hv)) clients n

theorem cleanupDeadConnections_mem {clients : Registry} {e : String × Conn}
    (he : e ∈ cleanupDeadConnections clients) : e ∈ clients ∧ e.2.readyState = 1 := by
  obtain ⟨hm, hrest⟩ := sweepLoop_mem clients clients 0 e he
  refine ⟨hm, ?_⟩
  by_contra hd
  exact hrest e hm hd rfl

/-- After the cleanup timer the heartbeat timer finds every socket open: it
removes nothing and skips its broadcast.  A tick sends no frame. -/
theorem sweepTick_silent (clients : Registry) (clk : Clock) :
    sweepTick clients clk = ⟨cleanupDeadConnections clients, [], false⟩ := by
  have hopen : ∀ v ∈ cleanupDeadConnections clients, v.2.readyState = 1 :=
    fun v hv => (cleanupDeadConnections_mem hv).2
  have hl := sweepLoop_of_all_open (cleanupDeadConnections clients) hopen
    (cleanupDeadConnections clients) 0
  simp [sweepTick, cleanupTimer, heartbeatTimer, hl]

/-- C8 on the code: with A registered but not open and B, C open, one tick
removes A and sends nothing; B and C get no departure broadcast.  Run alone,
the heartbeat timer would have sent each of them `online_update` with
`onlineCount` 2. -/
theorem sweep_tick_announces_nothing :
    sweepTick roomDeadA ⟨"m1", "t1"⟩ =
        ⟨[("B", ⟨2, 1, false⟩), ("C", ⟨3, 1, false⟩)], [], false⟩ ∧
      heartbeatTimer roomDeadA ⟨"m1", "t1"⟩ =
        ⟨[("B", ⟨2, 1, false⟩), ("C", ⟨3, 1, false⟩)],
          [⟨2, Frame.online_update 2 "t1"⟩, ⟨3, Frame.online_update 2 "t1"⟩], false⟩ := by
  decide

/-! ## Disconnecting twice -/

theorem mapHas_eq_false_iff {clients : Registry} {userId : String} :
    mapHas clients userId = false ↔ ∀ e ∈ clients, e.1 ≠ userId := by
  simp [mapHas]

theorem mapHas_mapDelete_self (clients : Registry) (userId : String) :
    mapHas (mapDelete clients userId) userId = false := by
  rw [mapHas_eq_false_iff]
  intro e he
  exact (mem_mapDelete.mp he).2

theorem mapHas_mapDelete_of_absent {clients : Registry} {userId : String} (k : String)
    (h : mapHas clients userId = false) : mapHas (mapDelete clients k) userId = false := by
  rw [mapHas_eq_false_iff] at h ⊢
  intro e he
  exact h e (mem_mapDelete.mp he).1

theorem mapDelete_of_absent {clients : Registry} {userId : String}
    (h : mapHas clients userId = false) : mapDelete clients userId = clients := by
  rw [mapHas_eq_false_iff] at h
  unfold mapDelete
  rw [List.filter_eq_self]
  intro e he
  simpa using h e he

theorem handleUserDisconnect_of_absent {clients : Registry} {userId : String} (clk : Clock)
    (h : mapHas clients userId = false) :
    handleUserDisconnect clients userId clk = ⟨clients, [], false⟩ := by
  simp [handleUserDisconnect, h]

theorem handleUserDisconnect_clients (clients : Registry) (userId : String) (clk : Clock) :
    (handleUserDisconnect clients userId clk).clients = mapDelete clients userId := by
  cases hh : mapHas clients userId with
  | false => rw [handleUserDisconnect_of_absent clk hh, mapDelete_of_absent hh]
  | true => simp [handleUserDisconnect, hh]

theorem broadcastLoop_data (message : Frame) (ex : Option String) :
    ∀ (l : List (String × Conn)), ∀ d ∈ (broadcastLoop message ex l).sent,
      d.data = message := by
  intro l
  induction l with
  | nil => intro d hd; cases hd
  | cons x xs ih =>
    intro d hd
    obtain ⟨userId, client⟩ := x
    by_cases hg : some userId ≠ ex ∧ client.readyState = 1
    · cases hs : client.sendRaises with
      | true =>
        simp only [broadcastLoop, if_pos hg, hs, if_true] at hd
        cases hd
      | false =>
        simp only [broadcastLoop, if_pos hg, hs] at hd
        rcases List.mem_cons.mp hd with rfl | hrest
        · rfl
        · exact ih d hrest
    · simp only [broadcastLoop, if_neg hg] at hd
      exact ih d hd

theorem broadcastLoop_chans_sublist (message : Frame) (ex : Option String) :
    ∀ (l : List (String × Conn)),
      ((broadcastLoop message ex l).sent.map Delivery.chan).Sublist
        (l.map (fun e => e.2.chan)) := by
  intro l
  induction l with
  | nil => exact List.Sublist.slnil
  | cons x xs ih =>
    obtain ⟨userId, client⟩ := x
    by_cases hg : some userId ≠ ex ∧ client.readyState = 1
    · cases hs : client.sendRaises with
      | true =>
        simp only [broadcastLoop, if_pos hg, hs, if_true, List.map_nil]
        exact List.nil_sublist _
      | false =>
        simp only [broadcastLoop, if_pos hg, hs, List.map_cons]
        exact List.Sublist.cons₂ _ ih
    · simp only [broadcastLoop, if_neg hg, List.map_cons]
      exact List.Sublist.cons _ ih

theorem mapDelete_chans_sublist (clients : Registry) (userId : String) :
    ((mapDelete clients userId).map (fun e => e.2.chan)).Sublist
      (clients.map (fun e => e.2.chan)) :=
  List.Sublist.map _ (List.filter_sublist _)

theorem handleUserDisconnect_chans_sublist (clients : Registry) (userId : String)
    (clk : Clock) :
    ((handleUserDisconnect clients userId clk).sent.map Delivery.chan).Sublist
      (clients.map (fun e => e.2.chan)) := by
  cases hh : mapHas clients userId with
  | false =>
    rw [handleUserDisconnect_of_absent clk hh]
    exact List.nil_sublist _
  | true =>
    simp only [handleUserDisconnect, hh, if_true]
    exact (broadcastLoop_chans_sublist _ _ _).trans (mapDelete_chans_sublist clients userId)

theorem handleUserDisconnect_data (clients : Registry) (userId : String) (clk : Clock) :
    ∀ d ∈ (handleUserDisconnect clients userId clk).sent,
      d.data = Frame.user_left userId clk.iso (mapDelete clients userId).length := by
  intro d hd
  cases hh : mapHas clients userId with
  | false =>
    rw [handleUserDisconnect_of_absent clk hh] at hd
    cases hd
  | true =>
    simp only [handleUserDisconnect, hh, if_true] at hd
    exact broadcastLoop_data _ _ _ d hd

theorem length_filter_chan_le_one (q : Delivery → Bool) (c : Nat) :
    ∀ (l : List Delivery), (l.map Delivery.chan).Nodup →
      (l.filter (fun d => d.chan == c && q d)).length ≤ 1 := by
  intro l
  induction l with
  | nil => intro _; simp
  | cons x xs ih =>
    intro hnd
    rw [List.map_cons, List.nodup_cons] at hnd
    by_cases hx : (x.chan == c && q x) = true
    · rw [List.filter_cons, if_pos hx]
      have hc : x.chan = c := by
        rw [Bool.and_eq_true] at hx
        simpa using hx.1
      have hnil : xs.filter (fun d => d.chan == c && q d) = [] := by
        rw [List.filter_eq_nil_iff]
        intro d hd hdc
        rw [Bool.and_eq_true] at hdc
        have hdc1 : d.chan = c := by simpa using hdc.1
        exact hnd.1 (List.mem_map.mpr ⟨d, hd, hdc1.trans hc.symm⟩)
      rw [hnil]
      simp
    · rw [List.filter_cons, if_neg hx]
      exact ih hnd.2

theorem no_announcement_of_absent (userId : String) (calls : List (String × Clock)) :
    ∀ (clients : Registry), mapHas clients userId = false →
      ∀ d ∈ (handleUserDisconnects clients calls).sent,
        announcesLeft userId d.data = false := by
  induction calls with
  | nil => intro clients _ d hd; cases hd
  | cons call rest ih =>
    intro clients hab d hd
    obtain ⟨k, clk⟩ := call
    simp only [handleUserDisconnects, List.mem_append] at hd
    rcases hd with h1 | h2
    · by_cases hk : k = userId
      · subst hk
        rw [handleUserDisconnect_of_absent clk hab] at h1
        cases h1
      · rw [handleUserDisconnect_data clients k clk d h1]
        simpa [announcesLeft] using hk
    · refine ih _ ?_ d h2
      rw [handleUserDisconnect_clients]
      exact mapHas_mapDelete_of_absent k hab

theorem announcements_le_one (userId : String) (c : Nat) (calls : List (String × Clock)) :
    ∀ (clients : Registry), (clients.map (fun e => e.2.chan)).Nodup →
      ((handleUserDisconnects clients calls).sent.filter
        (fun d => d.chan == c && announcesLeft userId d.data)).length ≤ 1 := by
  induction calls with
  | nil => intro clients _; simp [handleUserDisconnects]
  | cons call rest ih =>
    intro clients hnd
    obtain ⟨k, clk⟩ := call
    have hnd1 : ((handleUserDisconnect clients k clk).clients.map
        (fun e => e.2.chan)).Nodup := by
      rw [handleUserDisconnect_clients]
      exact List.Nodup.sublist (mapDelete_chans_sublist clients k) hnd
    simp only [handleUserDisconnects, List.filter_append, List.length_append]
    by_cases hk : k = userId
    · subst hk
      have hrest : (handleUserDisconnects (handleUserDisconnect clients k clk).clients
          rest).sent.filter (fun d => d.chan == c && announcesLeft k d.data) = [] := by
        rw [List.filter_eq_nil_iff]
        intro d hd hq
        have hab : mapHas (handleUserDisconnect clients k clk).clients k = false := by
          rw [handleUserDisconnect_clients]
          exact mapHas_mapDelete_self clients k
        have := no_announcement_of_absent k rest _ hab d hd
        rw [Bool.and_eq_true, this] at hq
        exact Bool.false_ne_true hq.2
      rw [hrest, List.length_nil, Nat.add_zero]
      exact length_filter_chan_le_one _ c _
        (List.Nodup.sublist (handleUserDisconnect_chans_sublist clients k clk) hnd)
    · have hfirst : (handleUserDisconnect clients k clk).sent.filter
          (fun d => d.chan == c && announcesLeft userId d.data) = [] := by
        rw [List.filter_eq_nil_iff]
        intro d hd hq
        rw [handleUserDisconnect_data clients k clk d hd, Bool.and_eq_true] at hq
        have : k = userId := by simpa [announcesLeft] using hq.2
        exact hk this
      rw [hfirst, List.length_nil, Nat.zero_add]
      exact ih _ hnd1

theorem mapHas_sweepTick_of_dead {clients : Registry} {userId : String} {c : Conn}
    (clk : Clock) (hreg : (userId, c) ∈ clients) (hdead : c.readyState ≠ 1) :
    mapHas (sweepTick clients clk).clients userId = false := by
  rw [sweepTick_silent, mapHas_eq_false_iff]
  intro e he heq
  obtain ⟨_, hrest⟩ := sweepLoop_mem clients clients 0 e he
  exact hrest (userId, c) hreg hdead heq.symm

/-- C9: `handleUserDisconnect` run a second time for the same identity changes
nothing and sends nothing; the same holds when a timer tick has already
removed the identity (and the tick itself sent nothing); and over any sequence
of disconnect calls on a registry of distinct sockets, no socket gets more
than one `user_left` frame about a given identity. -/
theorem disconnect_twice_is_disconnect_once :
    (∀ (clients : Registry) (userId : String) (clk1 clk2 : Clock),
      handleUserDisconnect (handleUserDisconnect clients userId clk1).clients userId clk2 =
        ⟨(handleUserDisconnect clients userId clk1).clients, [], false⟩) ∧
    (∀ (clients : Registry) (userId : String) (c : Conn) (clk0 clk : Clock),
      (userId, c) ∈ clients → c.readyState ≠ 1 →
      (sweepTick clients clk0).sent = [] ∧
      handleUserDisconnect (sweepTick clients clk0).clients userId clk =
        ⟨(sweepTick clients clk0).clients, [], false⟩) ∧
    (∀ (clients : Registry) (calls : List (String × Clock)) (userId : String) (c : Nat),
      (clients.map (fun e => e.2.chan)).Nodup →
      ((handleUserDisconnects clients calls).sent.filter
        (fun d => d.chan == c && announcesLeft userId d.data)).length ≤ 1) := by
  refine ⟨fun clients userId clk1 clk2 => ?_, fun clients userId c clk0 clk hreg hdead => ?_,
    fun clients calls userId c hnd => announcements_le_one userId c calls clients hnd⟩
  · apply handleUserDisconnect_of_absent
    rw [handleUserDisconnect_clients]
    exact mapHas_mapDelete_self clients userId
  · refine ⟨by rw [sweepTick_silent], ?_⟩
    exact handleUserDisconnect_of_absent clk (mapHas_sweepTick_of_dead clk0 hreg hdead)

/-- C9 on examples: A, closed and swept, then disconnected: the registry stays
B, C and nothing is sent; and in the room A, B, C the calls for A, A, B, A
send B (socket 2) a single `user_left` frame about A. -/
theorem disconnect_twice_is_disconnect_once_witness :
    handleUserDisconnect (sweepTick roomDeadA ⟨"m0", "t0"⟩).clients "A" ⟨"m1", "t1"⟩ =
        ⟨[("B", ⟨2, 1, false⟩), ("C", ⟨3, 1, false⟩)], [], false⟩ ∧
      ((handleUserDisconnects roomABC
          [("A", ⟨"m1", "t1"⟩), ("A", ⟨"m2", "t2"⟩), ("B", ⟨"m3", "t3"⟩),
            ("A", ⟨"m4", "t4"⟩)]).sent.filter
        (fun d => d.chan == 2 && announcesLeft "A" d.data)).length ≤ 1 := by
  have h2 := (disconnect_twice_is_disconnect_once.2.1 roomDeadA "A" ⟨1, 3, false⟩
    ⟨"m0", "t0"⟩ ⟨"m1", "t1"⟩ (by simp [roomDeadA]) (by decide)).2
  have h3 := disconnect_twice_is_disconnect_once.2.2 roomABC
    [("A", ⟨"m1", "t1"⟩), ("A", ⟨"m2", "t2"⟩), ("B", ⟨"m3", "t3"⟩), ("A", ⟨"m4", "t4"⟩)]
    "A" 2 (by simp [roomABC])
  refine ⟨?_, h3⟩
  rw [h2]
  decide

/-! ## A duplicate identity -/

theorem onConnection_clients (clients : Registry) (h : List ChatMessage) (ws : Conn)
    (userId : String) (clk clkJoin : Clock) :
    (onConnection clients h ws userId clk clkJoin).clients = mapSet clients userId ws := by
  unfold onConnection
  dsimp only
  split <;> rfl

theorem mapSet_of_present {clients : Registry} {userId : String} (ws : Conn)
    (h : mapHas clients userId = true) :
    mapSet clients userId ws =
      clients.map (fun e => if e.1 == userId then (userId, ws) else e) := by
  simp [mapSet, h]

theorem mapGet_cons (x : String × Conn) (xs : Registry) (k : String) :
    mapGet (x :: xs) k = if x.1 = k then some x.2 else mapGet xs k := by
  by_cases h : x.1 = k
  · simp [mapGet, List.find?_cons, h]
  · simp [mapGet, List.find?_cons, h]

theorem mapHas_cons (x : String × Conn) (xs : Registry) (k : String) :
    mapHas (x :: xs) k = (x.1 == k || mapHas xs k) := by
  simp [mapHas]

theorem mapGet_replace_other (userId : String) (ws : Conn) (k : String) (hk : k ≠ userId) :
    ∀ (clients : Registry),
      mapGet (clients.map (fun e => if e.1 == userId then (userId, ws) else e)) k =
        mapGet clients k := by
  intro clients
  induction clients with
  | nil => rfl
  | cons x xs ih =>
    rw [List.map_cons, mapGet_cons, mapGet_cons, ih]
    by_cases hx : x.1 = userId
    · have hxk : ¬ (x.1 = k) := fun h => hk (h.symm.trans hx)
      have huk : ¬ (userId = k) := fun h => hk h.symm
      have hb : (x.1 == userId) = true := by simpa using hx
      rw [if_pos hb, if_neg hxk]
      exact if_neg huk
    · have hb : ¬ ((x.1 == userId) = true) := by simpa using hx
      rw [if_neg hb]

theorem mapGet_replace_self (userId : String) (ws : Conn) :
    ∀ (clients : Registry), mapHas clients userId = true →
      mapGet (clients.map (fun e => if e.1 == userId then (userId, ws) else e)) userId =
        some ws := by
  intro clients
  induction clients with
  | nil => intro h; simp [mapHas] at h
  | cons x xs ih =>
    intro h
    rw [List.map_cons, mapGet_cons]
    by_cases hx : x.1 = userId
    · have hb : (x.1 == userId) = true := by simpa using hx
      rw [if_pos hb]
      exact if_pos rfl
    · have hb : ¬ ((x.1 == userId) = true) := by simpa using hx
      rw [mapHas_cons] at h
      have hrest : mapHas xs userId = true := by simpa [hx] using h
      rw [if_neg hb, if_neg hx]
      exact ih hrest

/-- C10 fails: A is registered with socket 1; a new connection with socket 2
for which `generateUserId` returns A leaves socket 2 stored under A. -/
theorem duplicate_identity_swaps_channel :
    mapGet [("A", ⟨1, 1, false⟩)] "A" = some ⟨1, 1, false⟩ ∧
      mapGet (onConnection [("A", ⟨1, 1, false⟩)] [] ⟨2, 1, false⟩ "A"
        ⟨"m1", "t1"⟩ ⟨"m2", "t2"⟩).clients "A" = some ⟨2, 1, false⟩ := by
  decide

/-- C10 as amended: when the registry already holds an entry for the identity
that `generateUserId` returns, the `connection` callback stores the new socket
under it, in place of the old one; the keys, their order and their number stay
the same and the socket stored under every other key is unchanged. -/
theorem duplicate_identity_replaces_channel
    (clients : Registry) (h : List ChatMessage) (ws : Conn) (userId : String)
    (clk clkJoin : Clock) (hhas : mapHas clients userId = true) :
    mapGet (onConnection clients h ws userId clk clkJoin).clients userId = some ws ∧
    (onConnection clients h ws userId clk clkJoin).clients.map Prod.fst =
      clients.map Prod.fst ∧
    (∀ k, k ≠ userId →
      mapGet (onConnection clients h ws userId clk clkJoin).clients k =
        mapGet clients k) := by
  rw [onConnection_clients, mapSet_of_present ws hhas]
  refine ⟨mapGet_replace_self userId ws clients hhas, ?_,
    fun k hk => mapGet_replace_other userId ws k hk clients⟩
  rw [List.map_map]
  apply List.map_congr_left
  intro e _
  by_cases he : e.1 = userId
  · simp [he]
  · simp [he]

/-- C10 as amended, in the room A, B, C: a new connection with socket 9 that
is given the identity B takes the place of socket 2; A and C keep theirs. -/
theorem duplicate_identity_replaces_channel_witness :
    (onConnection roomABC [] ⟨9, 1, false⟩ "B" ⟨"m1", "t1"⟩ ⟨"m2", "t2"⟩).clients =
      [("A", ⟨1, 1, false⟩), ("B", ⟨9, 1, false⟩), ("C", ⟨3, 1, false⟩)] ∧
    mapGet (onConnection roomABC [] ⟨9, 1, false⟩ "B" ⟨"m1", "t1"⟩ ⟨"m2", "t2"⟩).clients
      "B" = some ⟨9, 1, false⟩ :=
  ⟨by decide,
   (duplicate_identity_replaces_channel roomABC [] ⟨9, 1, false⟩ "B" ⟨"m1", "t1"⟩
      ⟨"m2", "t2"⟩ (by decide)).1⟩

/-! ## A sender that is no longer registered -/

theorem filter_open_of_absent {clients : Registry} {userId : String}
    (habsent : mapHas clients userId = false) :
    clients.filter (fun e => decide (e.1 ≠ userId) && decide (e.2.readyState = 1)) =
      clients.filter (fun e => decide (e.2.readyState = 1)) := by
  rw [mapHas_eq_false_iff] at habsent
  apply List.filter_congr
  intro e he
  simp [habsent e he]

/-- C11 fails: B is registered and open, A is not registered; a `chat_message`
payload dispatched for A is appended to the history and sent to B. -/
theorem unregistered_sender_is_not_rejected :
    mapHas [("B", ⟨2, 1, false⟩)] "A" = false ∧
      handleWebSocketMessage [("B", ⟨2, 1, false⟩)] [] "A"
          ⟨some "chat_message", some "ghost", some "hi", none, none, none⟩
          ⟨1, 3, false⟩ ⟨"m1", "t1"⟩ =
        ⟨[("B", ⟨2, 1, false⟩)], [⟨"m1", "A", "ghost", some "hi", "t1"⟩],
          [⟨2, Frame.chat_message ⟨"m1", "A", "ghost", some "hi", "t1"⟩⟩], false⟩ := by
  decide

/-- C11 as amended: the handlers never look the sender up.  For an identity
that is not in the registry (and sends that do not throw), a `chat_message`
payload is appended to the history, the oldest record leaving when that makes
more than 100, and is sent to every open connection; a `typing` or a
`user_update` payload leaves the history as it is and is sent to every open
connection.  The registry is unchanged in the three cases. -/
theorem unregistered_sender_is_handled_like_any_other
    (clients : Registry) (h : List ChatMessage) (userId : String) (message : Payload)
    (ws : Conn) (clk : Clock)
    (habsent : mapHas clients userId = false)
    (hsend : ∀ e ∈ clients, e.2.readyState = 1 → e.2.sendRaises = false) :
    (message.type = some "chat_message" →
      handleWebSocketMessage clients h userId message ws clk =
        ⟨clients,
          if (h ++ [chatRecord userId message clk]).length > 100 then
            (h ++ [chatRecord userId message clk]).tail
          else h ++ [chatRecord userId message clk],
          (clients.filter (fun e => decide (e.2.readyState = 1))).map
            (fun e => ⟨e.2.chan, Frame.chat_message (chatRecord userId message clk)⟩),
          false⟩) ∧
    (message.type = some "typing" →
      handleWebSocketMessage clients h userId message ws clk =
        ⟨clients, h,
          (clients.filter (fun e => decide (e.2.readyState = 1))).map
            (fun e => ⟨e.2.chan,
              Frame.typing userId (displayName message userId) clk.iso⟩),
          false⟩) ∧
    (message.type = some "user_update" →
      handleWebSocketMessage clients h userId message ws clk =
        ⟨clients, h,
          (clients.filter (fun e => decide (e.2.readyState = 1))).map
            (fun e => ⟨e.2.chan,
              Frame.user_update userId (displayName message userId) clk.iso⟩),
          false⟩) := by
  refine ⟨fun ht => ?_, fun ht => ?_, fun ht => ?_⟩
  · simp only [handleWebSocketMessage, ht, if_true, handleChatMessage,
      broadcast_none_of_no_raise clients _ hsend]
  · have hb := broadcast_some_of_no_raise clients
      (Frame.typing userId (displayName message userId) clk.iso) userId
      (fun e he _ ho => hsend e he ho)
    rw [filter_open_of_absent habsent] at hb
    simp [handleWebSocketMessage, ht, handleTypingIndicator, hb]
  · simp [handleWebSocketMessage, ht, handleUserUpdate,
      broadcast_none_of_no_raise clients _ hsend]

/-- C11 as amended, with B, C registered and open and A not registered: a
`typing` payload dispatched for A is sent to B and to C. -/
theorem unregistered_sender_is_handled_like_any_other_witness :
    handleWebSocketMessage [("B", ⟨2, 1, false⟩), ("C", ⟨3, 1, false⟩)] [] "A"
        ⟨some "typing", some "ghost", none, none, none, none⟩ ⟨1, 3, false⟩ ⟨"m1", "t1"⟩ =
      ⟨[("B", ⟨2, 1, false⟩), ("C", ⟨3, 1, false⟩)], [],
        [⟨2, Frame.typing "A" "ghost" "t1"⟩, ⟨3, Frame.typing "A" "ghost" "t1"⟩],
        false⟩ := by
  have h := (unregistered_sender_is_handled_like_any_other
    [("B", ⟨2, 1, false⟩), ("C", ⟨3, 1, false⟩)] [] "A"
    ⟨some "typing", some "ghost", none, none, none, none⟩ ⟨1, 3, false⟩ ⟨"m1", "t1"⟩
    (by decide) (by simp)).2.1 rfl
  rw [h]
  simp [displayName]

/-! ## The online count -/

theorem onConnection_sent_data (clients : Registry) (h : List ChatMessage) (ws : Conn)
    (userId : String) (clk clkJoin : Clock) :
    ∀ d ∈ (onConnection clients h ws userId clk clkJoin).sent,
      d.data = Frame.welcome userId clk.iso "欢迎来到聊天室！"
          ((mapSet clients userId ws).map Prod.fst) (mapSet clients userId ws).length
          (sliceLast 10 h) ∨
        d.data = Frame.user_joined userId clkJoin.iso (mapSet clients userId ws).length := by
  intro d hd
  cases hs : ws.sendRaises with
  | true =>
    simp [onConnection, send, hs] at hd
  | false =>
    simp only [onConnection, send, hs, Bool.false_eq_true, if_false, List.singleton_append,
      List.mem_cons] at hd
    rcases hd with rfl | hb
    · exact Or.inl rfl
    · exact Or.inr (broadcastLoop_data _ _ _ d hb)

theorem onConnection_sent_head (clients : Registry) (h : List ChatMessage) (ws : Conn)
    (userId : String) (clk clkJoin : Clock) (hs : ws.sendRaises = false) :
    (onConnection clients h ws userId clk clkJoin).sent.head? =
      some ⟨ws.chan, Frame.welcome userId clk.iso "欢迎来到聊天室！"
        ((mapSet clients userId ws).map Prod.fst) (mapSet clients userId ws).length
        (sliceLast 10 h)⟩ := by
  simp [onConnection, send, hs]

theorem mapSet_length_of_absent {clients : Registry} {userId : String} (ws : Conn)
    (h : mapHas clients userId = false) :
    (mapSet clients userId ws).length = clients.length + 1 := by
  simp [mapSet, h]

theorem mem_keys_mapSet (clients : Registry) (userId : String) (ws : Conn) :
    userId ∈ (mapSet clients userId ws).map Prod.fst := by
  cases hh : mapHas clients userId with
  | false => simp [mapSet, hh]
  | true =>
    rw [mapSet_of_present ws hh, List.mem_map]
    have hex : ∃ e ∈ clients, e.1 = userId := by
      simpa [mapHas] using hh
    obtain ⟨e, he, hk⟩ := hex
    refine ⟨(userId, ws), ?_, rfl⟩
    rw [List.mem_map]
    exact ⟨e, he, by simp [hk]⟩

theorem mapDelete_length_of_present :
    ∀ (clients : Registry) (userId : String), clients.WF → mapHas clients userId = true →
      (mapDelete clients userId).length + 1 = clients.length := by
  intro clients
  induction clients with
  | nil => intro userId _ h; simp [mapHas] at h
  | cons x xs ih =>
    intro userId hwf hh
    unfold Registry.WF at hwf
    rw [List.map_cons, List.nodup_cons] at hwf
    by_cases hx : x.1 = userId
    · have habs : mapHas xs userId = false := by
        rw [mapHas_eq_false_iff]
        intro e he heq
        exact hwf.1 (List.mem_map.mpr ⟨e, he, heq.trans hx.symm⟩)
      have hrest := mapDelete_of_absent habs
      unfold mapDelete at hrest ⊢
      rw [List.filter_cons, if_neg (by simpa using hx), hrest]
      rfl
    · have hrest : mapHas xs userId = true := by
        rw [mapHas_cons] at hh
        simpa [hx] using hh
      have ih1 := ih userId hwf.2 hrest
      unfold mapDelete at ih1 ⊢
      rw [List.filter_cons, if_pos (by simpa using hx)]
      simp only [List.length_cons]
      omega

theorem heartbeatTimer_data (clients : Registry) (clk : Clock) :
    ∀ d ∈ (heartbeatTimer clients clk).sent,
      d.data = Frame.online_update (heartbeatTimer clients clk).clients.length clk.iso := by
  intro d hd
  unfold heartbeatTimer at hd ⊢
  dsimp only at hd ⊢
  split at hd
  · rename_i hpos
    rw [if_pos hpos]
    exact broadcastLoop_data _ _ _ d hd
  · cases hd

/-- C12: every frame the `connection` callback sends is the welcome frame or
the `user_joined` frame, both carrying as `onlineCount` the size of the
registry after `clients.set`, which is the registry the callback leaves; the
`onlineUsers` of the welcome frame are the keys of that registry, as many as
its size, the new identity among them; for a fresh identity that size is the
previous size plus one, and a socket whose `send` works gets the welcome frame
first.  Every frame `handleUserDisconnect` sends is `user_left` with the size
of the registry after the deletion, which for a registered identity is the
previous size minus one.  Every frame the heartbeat timer sends is
`online_update` with the size of the registry it leaves. -/
theorem online_count_is_registry_size :
    (∀ (clients : Registry) (h : List ChatMessage) (ws : Conn) (userId : String)
        (clk clkJoin : Clock),
      (onConnection clients h ws userId clk clkJoin).clients = mapSet clients userId ws ∧
      (∀ d ∈ (onConnection clients h ws userId clk clkJoin).sent,
        d.data = Frame.welcome userId clk.iso "欢迎来到聊天室！"
            ((mapSet clients userId ws).map Prod.fst) (mapSet clients userId ws).length
            (sliceLast 10 h) ∨
          d.data =
            Frame.user_joined userId clkJoin.iso (mapSet clients userId ws).length) ∧
      ((mapSet clients userId ws).map Prod.fst).length =
        (mapSet clients userId ws).length ∧
      userId ∈ (mapSet clients userId ws).map Prod.fst ∧
      (mapHas clients userId = false →
        (mapSet clients userId ws).length = clients.length + 1) ∧
      (ws.sendRaises = false →
        (onConnection clients h ws userId clk clkJoin).sent.head? =
          some ⟨ws.chan, Frame.welcome userId clk.iso "欢迎来到聊天室！"
            ((mapSet clients userId ws).map Prod.fst) (mapSet clients userId ws).length
            (sliceLast 10 h)⟩)) ∧
    (∀ (clients : Registry) (userId : String) (clk : Clock),
      (∀ d ∈ (handleUserDisconnect clients userId clk).sent,
        d.data = Frame.user_left userId clk.iso
          (handleUserDisconnect clients userId clk).clients.length) ∧
      (clients.WF → mapHas clients userId = true →
        (handleUserDisconnect clients userId clk).clients.length + 1 = clients.length)) ∧
    (∀ (clients : Registry) (clk : Clock),
      ∀ d ∈ (heartbeatTimer clients clk).sent,
        d.data =
          Frame.online_update (heartbeatTimer clients clk).clients.length clk.iso) := by
  refine ⟨fun clients h ws userId clk clkJoin => ⟨onConnection_clients _ _ _ _ _ _,
      onConnection_sent_data _ _ _ _ _ _, List.length_map _ _, mem_keys_mapSet _ _ _,
      fun habs => mapSet_length_of_absent ws habs,
      fun hs => onConnection_sent_head _ _ _ _ _ _ hs⟩,
    fun clients userId clk => ⟨fun d hd => ?_, fun hwf hh => ?_⟩,
    fun clients clk => heartbeatTimer_data clients clk⟩
  · rw [handleUserDisconnect_clients]
    exact handleUserDisconnect_data clients userId clk d hd
  · rw [handleUserDisconnect_clients]
    exact mapDelete_length_of_present clients userId hwf hh

/-- C12 in the room A, B, C: a newcomer D on socket 4 is welcomed with the
four identities and `onlineCount` 4; after A disconnects the registry has one
entry less than the three it had. -/
theorem online_count_is_registry_size_witness :
    (onConnection roomABC [] ⟨4, 1, false⟩ "D" ⟨"m1", "t1"⟩ ⟨"m2", "t2"⟩).sent.head? =
        some ⟨4, Frame.welcome "D" "t1" "欢迎来到聊天室！" ["A", "B", "C", "D"] 4 []⟩ ∧
      (handleUserDisconnect roomABC "A" ⟨"m3", "t3"⟩).clients.length + 1 = 3 := by
  have h1 := (online_count_is_registry_size.1 roomABC [] ⟨4, 1, false⟩ "D" ⟨"m1", "t1"⟩
    ⟨"m2", "t2"⟩).2.2.2.2.2 rfl
  have h2 := (online_count_is_registry_size.2.1 roomABC "A" ⟨"m3", "t3"⟩).2
    (by simp [Registry.WF, roomABC]) (by decide)
  refine ⟨?_, h2⟩
  rw [h1]
  decide

/-! ## The history query -/

theorem arraySlice_neg_of_pos (n : Nat) (hn : 0 < n) (l : List ChatMessage) :
    arraySlice (-(n : Int)) l = l.drop (l.length - min n l.length) := by
  have hneg : (-(n : Int)) < 0 := by omega
  have habs : (-(n : Int)).natAbs = n := by omega
  rw [arraySlice, if_pos hneg, habs]
  congr 1
  omega

/-- C13 fails at the limit 0: on a history of one record the query answers
with that record, not with the last `min 0 1 = 0` records. -/
theorem limit_zero_is_not_zero_records :
    apiMessages [⟨"m1", "A", "alice", some "hi", "t1"⟩] (some 0) =
        [⟨"m1", "A", "alice", some "hi", "t1"⟩] ∧
      ([⟨"m1", "A", "alice", some "hi", "t1"⟩] : List ChatMessage).drop
        (1 - min 0 1) = [] := by
  decide

/-- C13 as amended: for a positive limit `N` the response is the last
`min N size` records of the history, oldest first; for the limit 0, and when
no limit is given, it is the last `min 20 size` records. -/
theorem history_query_returns_last_records (h : List ChatMessage) :
    (∀ (N : Nat), 0 < N →
      apiMessages h (some (N : Int)) = h.drop (h.length - min N h.length) ∧
        (apiMessages h (some (N : Int))).length = min N h.length) ∧
    apiMessages h (some 0) = h.drop (h.length - min 20 h.length) ∧
    apiMessages h none = h.drop (h.length - min 20 h.length) := by
  have h20 := arraySlice_neg_of_pos 20 (by omega) h
  refine ⟨fun N hN => ?_, ?_, ?_⟩
  · have hne : ¬ ((N : Int) = 0) := by omega
    have heq : apiMessages h (some (N : Int)) = h.drop (h.length - min N h.length) := by
      simp only [apiMessages, hne, if_false]
      exact arraySlice_neg_of_pos N hN h
    refine ⟨heq, ?_⟩
    rw [heq, List.length_drop]
    omega
  · simpa [apiMessages] using h20
  · simpa [apiMessages] using h20

/-- C13 as amended, on the 150 records of the sequential scenario: the limit 3
gives the last three records, 147 to 149. -/
theorem history_query_returns_last_records_witness :
    apiMessages (((List.range 150).map nthCall).map ChatCall.record) (some 3) =
      ((List.range' 147 3).map nthCall).map ChatCall.record := by
  have h := ((history_query_returns_last_records
    (((List.range 150).map nthCall).map ChatCall.record)).1 3 (by omega)).1
  have hlen : (((List.range 150).map nthCall).map ChatCall.record).length = 150 := by simp
  rw [hlen] at h
  have h3 : apiMessages (((List.range 150).map nthCall).map ChatCall.record) (some 3) =
      apiMessages (((List.range 150).map nthCall).map ChatCall.record)
        (some ((3 : Nat) : Int)) := rfl
  rw [h3, h, ← List.map_drop, ← List.map_drop]
  have hr : (List.range 150).drop (150 - min 3 150) = List.range' 147 3 := by decide
  rw [hr]

/-! ## What the sweep keeps -/

theorem sweepLoop_fst_eq_filter (visit : List (String × Conn)) :
    ∀ (clients : Registry) (n : Nat),
      (sweepLoop visit clients n).1 =
        clients.filter (fun e =>
          !(visit.any (fun v => decide (v.2.readyState ≠ 1) && (v.1 == e.1)))) := by
  induction visit with
  | nil =>
    intro clients n
    simp [sweepLoop]
  | cons x xs ih =>
    intro clients n
    obtain ⟨userId, client⟩ := x
    by_cases hd : client.readyState ≠ 1
    · have hdec : decide (client.readyState ≠ 1) = true := decide_eq_true hd
      simp only [sweepLoop, if_pos hd]
      rw [ih, mapDelete, List.filter_filter]
      apply List.filter_congr
      intro e _
      beta_reduce
      rw [List.any_cons, hdec, Bool.true_and, Bool.not_or]
      by_cases hk : userId = e.1
      · rw [← hk]
        simp
      · have hk2 : ¬ e.1 = userId := fun h => hk h.symm
        have e1 : (e.1 != userId) = true := by simpa using hk2
        have e2 : (userId == e.1) = false := by simpa using hk
        rw [e1, e2]
        simp
    · have hdec : decide (client.readyState ≠ 1) = false := decide_eq_false hd
      simp only [sweepLoop, if_neg hd]
      rw [ih]
      apply List.filter_congr
      intro e _
      rw [List.any_cons, hdec, Bool.false_and, Bool.false_or]

theorem dead_key_iff_dead {clients : Registry} (hwf : clients.WF) {e : String × Conn}
    (he : e ∈ clients) :
    (!(clients.any (fun v => decide (v.2.readyState ≠ 1) && (v.1 == e.1)))) =
      decide (e.2.readyState = 1) := by
  by_cases ho : e.2.readyState = 1
  · have hnone : clients.any
        (fun v => decide (v.2.readyState ≠ 1) && (v.1 == e.1)) = false := by
      rw [List.any_eq_false]
      intro v hv hc
      rw [Bool.and_eq_true] at hc
      have hkey : v.1 = e.1 := by simpa using hc.2
      have hsame : v = e := List.inj_on_of_nodup_map hwf hv he hkey
      rw [hsame] at hc
      exact (of_decide_eq_true hc.1) ho
    rw [hnone]
    simp [ho]
  · have hsome : clients.any
        (fun v => decide (v.2.readyState ≠ 1) && (v.1 == e.1)) = true := by
      rw [List.any_eq_true]
      exact ⟨e, he, by simp [ho]⟩
    rw [hsome]
    simp [ho]

theorem cleanupDeadConnections_eq_filter {clients : Registry} (hwf : clients.WF) :
    cleanupDeadConnections clients =
      clients.filter (fun e => decide (e.2.readyState = 1)) := by
  rw [cleanupDeadConnections, sweepLoop_fst_eq_filter]
  apply List.filter_congr
  intro e he
  exact dead_key_iff_dead hwf he

theorem cleanupDeadConnections_idem (clients : Registry) :
    cleanupDeadConnections (cleanupDeadConnections clients) =
      cleanupDeadConnections clients := by
  have hopen : ∀ v ∈ cleanupDeadConnections clients, v.2.readyState = 1 :=
    fun v hv => (cleanupDeadConnections_mem hv).2
  have hl := sweepLoop_of_all_open (cleanupDeadConnections clients) hopen
    (cleanupDeadConnections clients) 0
  conv_lhs => rw [cleanupDeadConnections, hl]

/-- C14: on a registry with one entry per key, `cleanupDeadConnections` leaves
exactly the entries whose `readyState` was 1, unchanged and in their order:
deleting the entry being visited makes the loop skip nothing, so every other
entry is removed.  Running it a second time changes nothing.  The loop of
the heartbeat timer leaves the same registry. -/
theorem cleanup_keeps_exactly_the_open_entries :
    (∀ (clients : Registry), clients.WF →
      cleanupDeadConnections clients =
        clients.filter (fun e => decide (e.2.readyState = 1))) ∧
    (∀ (clients : Registry),
      cleanupDeadConnections (cleanupDeadConnections clients) =
        cleanupDeadConnections clients) ∧
    (∀ (clients : Registry) (clk : Clock), clients.WF →
      (heartbeatTimer clients clk).clients =
        clients.filter (fun e => decide (e.2.readyState = 1))) := by
  refine ⟨fun clients hwf => cleanupDeadConnections_eq_filter hwf,
    cleanupDeadConnections_idem, fun clients clk hwf => ?_⟩
  have hc : (heartbeatTimer clients clk).clients = cleanupDeadConnections clients := by
    unfold heartbeatTimer cleanupDeadConnections
    dsimp only
    split <;> rfl
  rw [hc]
  exact cleanupDeadConnections_eq_filter hwf

/-- C14 on A (closed), B, C (open): the sweep leaves B and C. -/
theorem cleanup_keeps_exactly_the_open_entries_witness :
    cleanupDeadConnections roomDeadA = [("B", ⟨2, 1, false⟩), ("C", ⟨3, 1, false⟩)] := by
  rw [cleanup_keeps_exactly_the_open_entries.1 roomDeadA (by simp [Registry.WF, roomDeadA])]
  decide

/-! ## The history replayed to a newcomer -/

theorem sliceLast_ten (h : List ChatMessage) :
    sliceLast 10 h = h.drop (h.length - min 10 h.length) := by
  unfold sliceLast
  congr 1
  omega

/-- C15: the `messageHistory` of any welcome frame the `connection` callback
sends is the last `min 10 size` records of the history, oldest first; a new
socket whose `send` works gets that welcome frame, as the first frame of the
call; and the callback leaves the history as it was. -/
theorem welcome_replays_last_10
    (clients : Registry) (h : List ChatMessage) (ws : Conn) (userId : String)
    (clk clkJoin : Clock) (hs : ws.sendRaises = false) :
    (onConnection clients h ws userId clk clkJoin).sent.head? =
      some ⟨ws.chan, Frame.welcome userId clk.iso "欢迎来到聊天室！"
        ((mapSet clients userId ws).map Prod.fst) (mapSet clients userId ws).length
        (h.drop (h.length - min 10 h.length))⟩ ∧
    (h.drop (h.length - min 10 h.length)).length = min 10 h.length ∧
    (∀ d ∈ (onConnection clients h ws userId clk clkJoin).sent,
      ∀ (u t m : String) (us : List String) (n : Nat) (mh : List ChatMessage),
        d.data = Frame.welcome u t m us n mh →
          mh = h.drop (h.length - min 10 h.length)) ∧
    (onConnection clients h ws userId clk clkJoin).messageHistory = h := by
  refine ⟨?_, ?_, ?_, onConnection_messageHistory _ _ _ _ _ _⟩
  · rw [onConnection_sent_head _ _ _ _ _ _ hs, sliceLast_ten]
  · rw [List.length_drop]
    omega
  · intro d hd u t m us n mh hw
    rcases onConnection_sent_data clients h ws userId clk clkJoin d hd with h1 | h1
    · rw [h1] at hw
      injection hw with _ _ _ _ _ hmh
      rw [← hmh, sliceLast_ten]
    · rw [h1] at hw
      cases hw

/-- C15 on the 150 records of the sequential scenario cut to 100 by the
server: a newcomer D in the room A, B, C is sent the records 140 to 149. -/
theorem welcome_replays_last_10_witness :
    (onConnection roomABC (((List.range' 50 100).map nthCall).map ChatCall.record)
        ⟨4, 1, false⟩ "D" ⟨"m1", "t1"⟩ ⟨"m2", "t2"⟩).sent.head? =
      some ⟨4, Frame.welcome "D" "t1" "欢迎来到聊天室！" ["A", "B", "C", "D"] 4
        (((List.range' 140 10).map nthCall).map ChatCall.record)⟩ := by
  have h := (welcome_replays_last_10 roomABC
    (((List.range' 50 100).map nthCall).map ChatCall.record)
    ⟨4, 1, false⟩ "D" ⟨"m1", "t1"⟩ ⟨"m2", "t2"⟩ rfl).1
  have hlen : (((List.range' 50 100).map nthCall).map ChatCall.record).length = 100 := by
    simp
  rw [hlen, ← List.map_drop, ← List.map_drop] at h
  have hr : (List.range' 50 100).drop (100 - min 10 100) = List.range' 140 10 := by decide
  have hk : (mapSet roomABC "D" ⟨4, 1, false⟩) =
      [("A", ⟨1, 1, false⟩), ("B", ⟨2, 1, false⟩), ("C", ⟨3, 1, false⟩),
        ("D", ⟨4, 1, false⟩)] := by decide
  rw [hr, hk] at h
  exact h

/-! ## The two copies of the engine -/

theorem chatServer_broadcastLoop_eq (message : Frame) (ex : Option String) :
    ∀ (l : List (String × Conn)),
      ChatServer.broadcastLoop message ex l = broadcastLoop message ex l := by
  intro l
  induction l with
  | nil => rfl
  | cons x xs ih =>
    obtain ⟨userId, client⟩ := x
    by_cases hg : some userId ≠ ex ∧ client.readyState = 1
    · cases hs : client.sendRaises with
      | true => simp [ChatServer.broadcastLoop, broadcastLoop, hg, send, hs]
      | false => simp [ChatServer.broadcastLoop, broadcastLoop, hg, send, hs, ih]
    · simp only [ChatServer.broadcastLoop, broadcastLoop, if_neg hg, ih]

theorem chatServer_broadcast_eq (s : ChatServer) (message : Frame) (ex : Option String) :
    ChatServer.broadcast s message ex = broadcast s.clients message ex :=
  chatServer_broadcastLoop_eq message ex s.clients

theorem chatServer_cleanupLoop_eq (visit : List (String × Conn)) :
    ∀ (s : ChatServer) (n : Nat),
      ChatServer.cleanupLoop visit s n =
        (⟨(sweepLoop visit s.clients n).1, s.messageHistory⟩,
          (sweepLoop visit s.clients n).2) := by
  induction visit with
  | nil => intro s n; rfl
  | cons x xs ih =>
    intro s n
    obtain ⟨userId, client⟩ := x
    by_cases hd : client.readyState ≠ 1
    · simp only [ChatServer.cleanupLoop, sweepLoop, if_pos hd, ih]
    · simp only [ChatServer.cleanupLoop, sweepLoop, if_neg hd, ih]

theorem chatServer_handleChatMessage_eq (s : ChatServer) (userId : String)
    (message : Payload) (clk : Clock) :
    ChatServer.handleChatMessage s userId message clk =
      ⟨⟨(handleChatMessage s.clients s.messageHistory userId message clk).clients,
          (handleChatMessage s.clients s.messageHistory userId message clk).messageHistory⟩,
        (handleChatMessage s.clients s.messageHistory userId message clk).sent,
        (handleChatMessage s.clients s.messageHistory userId message clk).raised⟩ := by
  simp only [ChatServer.handleChatMessage, handleChatMessage, chatServer_broadcast_eq]
  rfl

theorem chatServer_handleTypingIndicator_eq (s : ChatServer) (userId : String)
    (message : Payload) (clk : Clock) :
    ChatServer.handleTypingIndicator s userId message clk =
      ⟨s, (handleTypingIndicator s.clients userId message clk).sent,
        (handleTypingIndicator s.clients userId message clk).raised⟩ := by
  simp only [ChatServer.handleTypingIndicator, handleTypingIndicator,
    chatServer_broadcast_eq]
  rfl

theorem chatServer_handleUserUpdate_eq (s : ChatServer) (userId : String)
    (message : Payload) (clk : Clock) :
    ChatServer.handleUserUpdate s userId message clk =
      ⟨s, (handleUserUpdate s.clients userId message clk).sent,
        (handleUserUpdate s.clients userId message clk).raised⟩ := by
  simp only [ChatServer.handleUserUpdate, handleUserUpdate, chatServer_broadcast_eq]
  rfl

theorem chatServer_handleWebSocketMessage_eq (s : ChatServer) (userId : String)
    (message : Payload) (ws : Conn) (clk : Clock) :
    ChatServer.handleWebSocketMessage s userId message ws clk =
      ⟨⟨(handleWebSocketMessage s.clients s.messageHistory userId message ws clk).clients,
          (handleWebSocketMessage s.clients s.messageHistory userId message ws
            clk).messageHistory⟩,
        (handleWebSocketMessage s.clients s.messageHistory userId message ws clk).sent,
        (handleWebSocketMessage s.clients s.messageHistory userId message ws
          clk).raised⟩ := by
  cases ht : message.type with
  | none =>
    simp [ChatServer.handleWebSocketMessage, handleWebSocketMessage, ht]
  | some t =>
    by_cases h1 : t = "chat_message"
    · simp [ChatServer.handleWebSocketMessage, handleWebSocketMessage, ht, h1,
        chatServer_handleChatMessage_eq]
    · by_cases h2 : t = "typing"
      · simp [ChatServer.handleWebSocketMessage, handleWebSocketMessage, ht, h2,
          chatServer_handleTypingIndicator_eq]
      · by_cases h3 : t = "user_update"
        · simp [ChatServer.handleWebSocketMessage, handleWebSocketMessage, ht, h3,
            chatServer_handleUserUpdate_eq]
        · simp [ChatServer.handleWebSocketMessage, handleWebSocketMessage, ht, h1, h2, h3]

theorem chatServer_handleUserDisconnect_eq (s : ChatServer) (userId : String)
    (clk : Clock) :
    ChatServer.handleUserDisconnect s userId clk =
      ⟨⟨(handleUserDisconnect s.clients userId clk).clients, s.messageHistory⟩,
        (handleUserDisconnect s.clients userId clk).sent,
        (handleUserDisconnect s.clients userId clk).raised⟩ := by
  cases hh : mapHas s.clients userId with
  | false => simp [ChatServer.handleUserDisconnect, handleUserDisconnect, hh]
  | true =>
    simp [ChatServer.handleUserDisconnect, handleUserDisconnect, hh,
      chatServer_broadcast_eq]

theorem chatServer_cleanupDeadConnections_eq (s : ChatServer) :
    ChatServer.cleanupDeadConnections s =
      ⟨cleanupDeadConnections s.clients, s.messageHistory⟩ := by
  simp only [ChatServer.cleanupDeadConnections, cleanupDeadConnections,
    chatServer_cleanupLoop_eq]

/-- C16: on the same registry, history, sender, payload, socket and clock
readings, each engine method of the class `ChatServer` of index.js
(`broadcast`, `handleWebSocketMessage`, `handleChatMessage`,
`handleTypingIndicator`, `handleUserUpdate`, `handleUserDisconnect`,
`cleanupDeadConnections`) leaves the registry and the history, sends the
frames to the sockets, and throws or not, exactly as the function of the same
name of websocket.js does. -/
theorem index_engine_agrees_with_websocket_engine :
    (∀ (s : ChatServer) (message : Frame) (ex : Option String),
      ChatServer.broadcast s message ex = broadcast s.clients message ex) ∧
    (∀ (s : ChatServer) (userId : String) (message : Payload) (ws : Conn) (clk : Clock),
      ChatServer.handleWebSocketMessage s userId message ws clk =
        ⟨⟨(handleWebSocketMessage s.clients s.messageHistory userId message ws
              clk).clients,
            (handleWebSocketMessage s.clients s.messageHistory userId message ws
              clk).messageHistory⟩,
          (handleWebSocketMessage s.clients s.messageHistory userId message ws clk).sent,
          (handleWebSocketMessage s.clients s.messageHistory userId message ws
            clk).raised⟩) ∧
    (∀ (s : ChatServer) (userId : String) (message : Payload) (clk : Clock),
      ChatServer.handleChatMessage s userId message clk =
        ⟨⟨(handleChatMessage s.clients s.messageHistory userId message clk).clients,
            (handleChatMessage s.clients s.messageHistory userId message
              clk).messageHistory⟩,
          (handleChatMessage s.clients s.messageHistory userId message clk).sent,
          (handleChatMessage s.clients s.messageHistory userId message clk).raised⟩) ∧
    (∀ (s : ChatServer) (userId : String) (message : Payload) (clk : Clock),
      ChatServer.handleTypingIndicator s userId message clk =
        ⟨s, (handleTypingIndicator s.clients userId message clk).sent,
          (handleTypingIndicator s.clients userId message clk).raised⟩) ∧
    (∀ (s : ChatServer) (userId : String) (message : Payload) (clk : Clock),
      ChatServer.handleUserUpdate s userId message clk =
        ⟨s, (handleUserUpdate s.clients userId message clk).sent,
          (handleUserUpdate s.clients userId message clk).raised⟩) ∧
    (∀ (s : ChatServer) (userId : String) (clk : Clock),
      ChatServer.handleUserDisconnect s userId clk =
        ⟨⟨(handleUserDisconnect s.clients userId clk).clients, s.messageHistory⟩,
          (handleUserDisconnect s.clients userId clk).sent,
          (handleUserDisconnect s.clients userId clk).raised⟩) ∧
    (∀ (s : ChatServer),
      ChatServer.cleanupDeadConnections s =
        ⟨cleanupDeadConnections s.clients, s.messageHistory⟩) :=
  ⟨chatServer_broadcast_eq, chatServer_handleWebSocketMessage_eq,
    chatServer_handleChatMessage_eq, chatServer_handleTypingIndicator_eq,
    chatServer_handleUserUpdate_eq, chatServer_handleUserDisconnect_eq,
    chatServer_cleanupDeadConnections_eq⟩

/-! ## Delivery of chat and typing frames -/

theorem broadcastLoop_sent_from (message : Frame) (ex : Option String) :
    ∀ (l : List (String × Conn)), ∀ d ∈ (broadcastLoop message ex l).sent,
      ∃ e ∈ l, isRecipient ex e = true ∧ d.chan = e.2.chan := by
  intro l
  induction l with
  | nil => intro d hd; cases hd
  | cons x xs ih =>
    intro d hd
    obtain ⟨userId, client⟩ := x
    by_cases hg : some userId ≠ ex ∧ client.readyState = 1
    · cases hs : client.sendRaises with
      | true =>
        simp only [broadcastLoop, if_pos hg, hs, if_true] at hd
        cases hd
      | false =>
        simp only [broadcastLoop, if_pos hg, hs] at hd
        rcases List.mem_cons.mp hd with rfl | hrest
        · exact ⟨(userId, client), List.mem_cons_self _ _,
            (isRecipient_iff ex userId client).mpr hg, rfl⟩
        · obtain ⟨e, he, hr, hc⟩ := ih d hrest
          exact ⟨e, List.mem_cons_of_mem _ he, hr, hc⟩
    · simp only [broadcastLoop, if_neg hg] at hd
      obtain ⟨e, he, hr, hc⟩ := ih d hd
      exact ⟨e, List.mem_cons_of_mem _ he, hr, hc⟩

theorem displayName_of_username (message : Payload) (P u : String)
    (hname : message.username = some u) (hu : u ≠ "") : displayName message P = u := by
  simp [displayName, hname, hu]

theorem displayName_of_no_username (message : Payload) (P : String)
    (hname : message.username = none ∨ message.username = some "") :
    displayName message P = defaultName P := by
  rcases hname with h | h <;> simp [displayName, h]

/-- C3 fails: the socket of A is open but its `send` throws, B is registered
and open and sends a `chat_message`: the record is stored, the broadcast stops
at A and throws, and neither A nor B gets a frame. -/
theorem chat_message_lost_when_a_send_throws :
    handleChatMessage roomBrokenA [] "B"
        ⟨some "chat_message", some "bob", some "hi", none, none, none⟩ ⟨"m1", "t1"⟩ =
      ⟨roomBrokenA, [⟨"m1", "B", "bob", some "hi", "t1"⟩], [], true⟩ := by
  decide

/-- C3 as amended.  For every registry, sender P, payload and clock:
`handleChatMessage` puts last in the history the record with `userId` P, the
payload's content, `messageId` and `timestamp` from the server clock, and as
username the payload's when it is non-empty, the default name otherwise; the
`messageId`, `timestamp` and `userId` properties of the payload have no
influence; the registry is unchanged; every frame sent is that record.  When
no send to an open socket throws, the call does not throw and sends one frame
per open entry of the registry, in registry order, the socket of P included
when P is registered and open; with distinct sockets the frames an open
connection gets are exactly that one frame. -/
theorem chat_message_reaches_every_open_connection
    (clients : Registry) (h : List ChatMessage) (P : String) (message : Payload)
    (clk : Clock) :
    (handleChatMessage clients h P message clk).messageHistory.getLast? =
      some (chatRecord P message clk) ∧
    (handleChatMessage clients h P message clk).clients = clients ∧
    ((chatRecord P message clk).userId = P ∧
      (chatRecord P message clk).content = message.content ∧
      (chatRecord P message clk).messageId = clk.now36 ∧
      (chatRecord P message clk).timestamp = clk.iso ∧
      (∀ u, message.username = some u → u ≠ "" →
        (chatRecord P message clk).username = u) ∧
      (message.username = none ∨ message.username = some "" →
        (chatRecord P message clk).username = defaultName P)) ∧
    (∀ (mid ts uid : Option String),
      handleChatMessage clients h P
          ⟨message.type, message.username, message.content, mid, ts, uid⟩ clk =
        handleChatMessage clients h P message clk) ∧
    (∀ d ∈ (handleChatMessage clients h P message clk).sent,
      d.data = Frame.chat_message (chatRecord P message clk)) ∧
    ((∀ e ∈ clients, e.2.readyState = 1 → e.2.sendRaises = false) →
      (handleChatMessage clients h P message clk).raised = false ∧
      (handleChatMessage clients h P message clk).sent =
        (clients.filter (fun e => decide (e.2.readyState = 1))).map
          (fun e => ⟨e.2.chan, Frame.chat_message (chatRecord P message clk)⟩) ∧
      (∀ pconn, (P, pconn) ∈ clients → pconn.readyState = 1 →
        (⟨pconn.chan, Frame.chat_message (chatRecord P message clk)⟩ : Delivery) ∈
          (handleChatMessage clients h P message clk).sent) ∧
      ((clients.map (fun e => e.2.chan)).Nodup →
        ∀ e ∈ clients, e.2.readyState = 1 →
          (handleChatMessage clients h P message clk).sent.filter
              (fun d => d.chan == e.2.chan) =
            [⟨e.2.chan, Frame.chat_message (chatRecord P message clk)⟩])) := by
  refine ⟨handleChatMessage_getLast clients h P message clk, rfl,
    ⟨rfl, rfl, rfl, rfl, fun u hname hu => displayName_of_username message P u hname hu,
      fun hname => displayName_of_no_username message P hname⟩,
    fun _ _ _ => rfl, fun d hd => broadcastLoop_data _ _ _ d hd, fun hsend => ?_⟩
  have hb := broadcast_none_of_no_raise clients
    (Frame.chat_message (chatRecord P message clk)) hsend
  obtain ⟨hs, hr⟩ := handleChatMessage_sent clients h P message clk
  rw [hb] at hs hr
  refine ⟨hr, hs, ?_, ?_⟩
  · intro pconn hreg hopen
    rw [hs, List.mem_map]
    exact ⟨(P, pconn), List.mem_filter.mpr ⟨hreg, by simpa using hopen⟩, rfl⟩
  · intro hnd e he heo
    rw [hs]
    exact frames_of_present_chan _ _ clients hnd e he (by simpa using heo)

/-- C3 as amended, on the scenario: A, B, C registered and open, A sends
`chat_message` with content `hi` and username `alice` on an empty history.
Each of the three sockets gets the frame once and the history has length 1. -/
theorem chat_message_reaches_every_open_connection_witness :
    (handleChatMessage roomABC [] "A"
        ⟨some "chat_message", some "alice", some "hi", none, none, none⟩
        ⟨"m1", "t1"⟩).sent =
      [⟨1, Frame.chat_message ⟨"m1", "A", "alice", some "hi", "t1"⟩⟩,
       ⟨2, Frame.chat_message ⟨"m1", "A", "alice", some "hi", "t1"⟩⟩,
       ⟨3, Frame.chat_message ⟨"m1", "A", "alice", some "hi", "t1"⟩⟩] ∧
    (handleChatMessage roomABC [] "A"
        ⟨some "chat_message", some "alice", some "hi", none, none, none⟩
        ⟨"m1", "t1"⟩).messageHistory.length = 1 := by
  have h := (chat_message_reaches_every_open_connection roomABC [] "A"
    ⟨some "chat_message", some "alice", some "hi", none, none, none⟩ ⟨"m1", "t1"⟩).2.2.2.2.2
    (by simp [roomABC])
  refine ⟨?_, rfl⟩
  rw [h.2.1]
  decide

/-- C4 fails: the `send` of A throws, B and C are open, C is typing: the
broadcast stops at A and throws, and B gets no `typing` frame. -/
theorem typing_lost_when_a_send_throws :
    handleTypingIndicator
        [("A", ⟨1, 1, true⟩), ("B", ⟨2, 1, false⟩), ("C", ⟨3, 1, false⟩)] "C"
        ⟨some "typing", some "carol", none, none, none, none⟩ ⟨"m1", "t1"⟩ =
      ⟨[], true⟩ := by
  decide

/-- C4 as amended.  For every registry, sender P and payload, every frame
`handleTypingIndicator` sends is the `typing` frame carrying `userId` P and
goes to an open entry whose key is not P; with distinct sockets no frame goes
to the socket registered under P.  When no send to an open socket other than
that of P throws, the call does not throw and sends one frame per open entry
whose key is not P, in registry order; with distinct sockets every such
connection gets exactly that one frame. -/
theorem typing_reaches_every_open_connection_but_sender
    (clients : Registry) (P : String) (message : Payload) (clk : Clock) :
    (∀ d ∈ (handleTypingIndicator clients P message clk).sent,
      d.data = Frame.typing P (displayName message P) clk.iso ∧
        ∃ e ∈ clients, e.1 ≠ P ∧ e.2.readyState = 1 ∧ d.chan = e.2.chan) ∧
    ((clients.map (fun e => e.2.chan)).Nodup →
      ∀ pconn, (P, pconn) ∈ clients →
        ∀ d ∈ (handleTypingIndicator clients P message clk).sent, d.chan ≠ pconn.chan) ∧
    ((∀ e ∈ clients, e.1 ≠ P → e.2.readyState = 1 → e.2.sendRaises = false) →
      (handleTypingIndicator clients P message clk).raised = false ∧
      (handleTypingIndicator clients P message clk).sent =
        (clients.filter (fun e => decide (e.1 ≠ P) && decide (e.2.readyState = 1))).map
          (fun e => ⟨e.2.chan, Frame.typing P (displayName message P) clk.iso⟩) ∧
      ((clients.map (fun e => e.2.chan)).Nodup →
        ∀ e ∈ clients, e.1 ≠ P → e.2.readyState = 1 →
          (handleTypingIndicator clients P message clk).sent.filter
              (fun d => d.chan == e.2.chan) =
            [⟨e.2.chan, Frame.typing P (displayName message P) clk.iso⟩])) := by
  have hfrom : ∀ d ∈ (handleTypingIndicator clients P message clk).sent,
      ∃ e ∈ clients, e.1 ≠ P ∧ e.2.readyState = 1 ∧ d.chan = e.2.chan := by
    intro d hd
    obtain ⟨e, he, hr, hc⟩ := broadcastLoop_sent_from _ _ _ d hd
    rw [isRecipient_some, Bool.and_eq_true] at hr
    exact ⟨e, he, of_decide_eq_true hr.1, of_decide_eq_true hr.2, hc⟩
  refine ⟨fun d hd => ⟨broadcastLoop_data _ _ _ d hd, hfrom d hd⟩, ?_, fun hsend => ?_⟩
  · intro hnd pconn hp d hd heq
    obtain ⟨e, he, hne, _, hc⟩ := hfrom d hd
    have hsame : e = (P, pconn) :=
      List.inj_on_of_nodup_map hnd he hp (hc.symm.trans heq)
    rw [hsame] at hne
    exact hne rfl
  · have hb := broadcast_some_of_no_raise clients
      (Frame.typing P (displayName message P) clk.iso) P hsend
    have hs : (handleTypingIndicator clients P message clk).sent =
        (clients.filter (fun e => decide (e.1 ≠ P) && decide (e.2.readyState = 1))).map
          (fun e => ⟨e.2.chan, Frame.typing P (displayName message P) clk.iso⟩) := by
      unfold handleTypingIndicator
      rw [hb]
    have hr : (handleTypingIndicator clients P message clk).raised = false := by
      unfold handleTypingIndicator
      rw [hb]
    refine ⟨hr, hs, fun hnd e he hne heo => ?_⟩
    rw [hs]
    exact frames_of_present_chan _ _ clients hnd e he (by simp [hne, heo])

/-- C4 as amended, on the room A, B, C: a `typing` payload from A gives one
frame to B and one to C, none to A. -/
theorem typing_reaches_every_open_connection_but_sender_witness :
    (handleTypingIndicator roomABC "A"
        ⟨some "typing", some "alice", none, none, none, none⟩ ⟨"m1", "t1"⟩).sent =
      [⟨2, Frame.typing "A" "alice" "t1"⟩, ⟨3, Frame.typing "A" "alice" "t1"⟩] := by
  have h := (typing_reaches_every_open_connection_but_sender roomABC "A"
    ⟨some "typing", some "alice", none, none, none, none⟩ ⟨"m1", "t1"⟩).2.2
    (by simp [roomABC])
  rw [h.2.1]
  decide

/-! ## Error replies -/

theorem onMessageAny_eq_onMessage (parseJson : String → Option Parsed)
    (clients : Registry) (h : List ChatMessage) (userId : String) (ws : Conn)
    (data : String) (clk clkCatch : Clock) :
    onMessageAny parseJson clients h userId ws data clk clkCatch =
      onMessage
        (fun t =>
          match parseJson t with
          | some (Parsed.value m) => some m
          | _ => none)
        clients h userId ws data clk clkCatch := by
  cases hp : parseJson data with
  | none => simp [onMessageAny, onMessage, hp]
  | some v =>
    cases v with
    | null => simp [onMessageAny, onMessage, hp, handleWebSocketMessageAny]
    | value m => simp [onMessageAny, onMessage, hp, handleWebSocketMessageAny]

/-- C5 fails: A sends a text that does not parse on a socket whose `send`
throws: no frame is sent and the callback throws. -/
theorem unparseable_frame_unanswered_when_send_throws :
    onMessage parseSample roomABC [] "A" ⟨1, 1, true⟩ "not json" ⟨"m1", "t1"⟩
        ⟨"m2", "t2"⟩ =
      ⟨roomABC, [], [], true⟩ := by
  decide

/-- C5 as amended.  For an inbound frame that `JSON.parse` rejects, the
`message` callback leaves `clients` and `messageHistory` as they were and
sends nothing to any other socket: when the `send` of the sender's socket does
not throw it sends exactly one frame, of type `error`, to that socket; when
it throws, no frame is sent and the callback throws.  The same holds when
`null` counts as rejected (`onMessage`) and when it does not
(`onMessageAny`). -/
theorem unparseable_frame_gets_one_error_reply
    (clients : Registry) (h : List ChatMessage) (userId : String) (ws : Conn)
    (data : String) (clk clkCatch : Clock) :
    (∀ (parse : String → Option Payload), parse data = none →
      (ws.sendRaises = false →
        onMessage parse clients h userId ws data clk clkCatch =
          ⟨clients, h, [⟨ws.chan, Frame.error "消息格式错误" clkCatch.iso⟩], false⟩) ∧
      (ws.sendRaises = true →
        onMessage parse clients h userId ws data clk clkCatch =
          ⟨clients, h, [], true⟩)) ∧
    (∀ (parseJson : String → Option Parsed), parseJson data = none →
      (ws.sendRaises = false →
        onMessageAny parseJson clients h userId ws data clk clkCatch =
          ⟨clients, h, [⟨ws.chan, Frame.error "消息格式错误" clkCatch.iso⟩], false⟩) ∧
      (ws.sendRaises = true →
        onMessageAny parseJson clients h userId ws data clk clkCatch =
          ⟨clients, h, [], true⟩)) := by
  refine ⟨fun parse hparse => ⟨fun hs => ?_, fun hs => ?_⟩,
    fun parseJson hparse => ⟨fun hs => ?_, fun hs => ?_⟩⟩
  · simp [onMessage, hparse, send, hs]
  · simp [onMessage, hparse, send, hs]
  · simp [onMessageAny, hparse, send, hs]
  · simp [onMessageAny, hparse, send, hs]

/-- C5 as amended, in the room A, B, C with one record in the history: A sends
a text that does not parse, on a working socket. -/
theorem unparseable_frame_gets_one_error_reply_witness :
    onMessageAny parseJsonSample roomABC [⟨"m0", "B", "bob", some "yo", "t0"⟩] "A"
        ⟨1, 1, false⟩ "not json" ⟨"m1", "t1"⟩ ⟨"m2", "t2"⟩ =
      ⟨roomABC, [⟨"m0", "B", "bob", some "yo", "t0"⟩],
        [⟨1, Frame.error "消息格式错误" "t2"⟩], false⟩ :=
  ((unparseable_frame_gets_one_error_reply roomABC _ "A" ⟨1, 1, false⟩ "not json"
    ⟨"m1", "t1"⟩ ⟨"m2", "t2"⟩).2 parseJsonSample (by decide)).1 rfl

/-- C6 fails twice: on the payload of `type` `bogus` with a sender socket
whose `send` throws, no frame is sent and the call throws; and on the payload
`null`, which parses and has no `type`, `handleWebSocketMessage` throws at
`message.type` and sends nothing, whatever the socket. -/
theorem unknown_type_unanswered :
    handleWebSocketMessageAny roomABC [] "A"
        (Parsed.value ⟨some "bogus", none, none, none, none, none⟩)
        ⟨1, 1, true⟩ ⟨"m1", "t1"⟩ =
      ⟨roomABC, [], [], true⟩ ∧
    handleWebSocketMessageAny roomABC [] "A" Parsed.null ⟨1, 1, false⟩ ⟨"m1", "t1"⟩ =
      ⟨roomABC, [], [], true⟩ := by
  decide

/-- C6 as amended.  For a payload other than `null` whose `type` is none of
`chat_message`, `typing`, `user_update` (a missing `type` included),
`handleWebSocketMessage` leaves `clients` and `messageHistory` as they were and
sends nothing to any other socket: when the `send` of the sender's socket does
not throw it sends exactly one frame, of type `error`, to that socket; when it
throws, no frame is sent and the call throws.  On the payload `null` the call
throws without sending or changing anything; the `catch` of the `message`
callback then sends the one `error` frame to the sender's socket, when its
`send` does not throw. -/
theorem unknown_type_gets_one_error_reply
    (clients : Registry) (h : List ChatMessage) (userId : String) (ws : Conn)
    (clk : Clock) :
    (∀ (message : Payload),
      message.type ≠ some "chat_message" → message.type ≠ some "typing" →
      message.type ≠ some "user_update" →
      (ws.sendRaises = false →
        handleWebSocketMessageAny clients h userId (Parsed.value message) ws clk =
          ⟨clients, h, [⟨ws.chan, Frame.error "未知的消息类型" clk.iso⟩], false⟩) ∧
      (ws.sendRaises = true →
        handleWebSocketMessageAny clients h userId (Parsed.value message) ws clk =
          ⟨clients, h, [], true⟩)) ∧
    handleWebSocketMessageAny clients h userId Parsed.null ws clk =
      ⟨clients, h, [], true⟩ ∧
    (∀ (parseJson : String → Option Parsed) (data : String) (clkCatch : Clock),
      parseJson data = some Parsed.null → ws.sendRaises = false →
      onMessageAny parseJson clients h userId ws data clk clkCatch =
        ⟨clients, h, [⟨ws.chan, Frame.error "消息格式错误" clkCatch.iso⟩], false⟩) := by
  refine ⟨fun message h1 h2 h3 => ⟨fun hs => ?_, fun hs => ?_⟩, rfl,
    fun parseJson data clkCatch hparse hs => ?_⟩
  · simp [handleWebSocketMessageAny, handleWebSocketMessage, h1, h2, h3, send, hs]
  · simp [handleWebSocketMessageAny, handleWebSocketMessage, h1, h2, h3, send, hs]
  · simp [onMessageAny, hparse, handleWebSocketMessageAny, send, hs]

/-- C6 as amended, on the payloads with `type` `bogus` and with no `type`,
sent by A in the room A, B, C on a working socket. -/
theorem unknown_type_gets_one_error_reply_witness :
    handleWebSocketMessageAny roomABC [] "A"
        (Parsed.value ⟨some "bogus", none, none, none, none, none⟩)
        ⟨1, 1, false⟩ ⟨"m1", "t1"⟩ =
      ⟨roomABC, [], [⟨1, Frame.error "未知的消息类型" "t1"⟩], false⟩ ∧
    handleWebSocketMessageAny roomABC [] "A"
        (Parsed.value ⟨none, none, none, none, none, none⟩)
        ⟨1, 1, false⟩ ⟨"m1", "t1"⟩ =
      ⟨roomABC, [], [⟨1, Frame.error "未知的消息类型" "t1"⟩], false⟩ :=
  ⟨((unknown_type_gets_one_error_reply roomABC [] "A" ⟨1, 1, false⟩ ⟨"m1", "t1"⟩).1 _
      (by simp) (by simp) (by simp)).1 rfl,
   ((unknown_type_gets_one_error_reply roomABC [] "A" ⟨1, 1, false⟩ ⟨"m1", "t1"⟩).1 _
      (by simp) (by simp) (by simp)).1 rfl⟩

end CricketChat
